import Mathlib

/-!
Verification development for the SUMO EV charging-placement evaluation core
(`reroutings.py`, `charging_metrics.py`, `simulation.py`).

Conventions of the shallow embedding:
* Python `float` values (simulation times, powers, energies) are modelled as `ℚ`.
* Python strings are Lean `String`s; `str.split("_")` is modelled by `splitSep '_'`
  acting on the underlying character list (identical semantics for the
  one-character separator `"_"`).
* Python dicts keyed by strings that are only read through `get`/`setdefault`
  with a fixed default are modelled as total functions `String → α` whose
  value on untouched keys is the default; dicts whose key set is iterated
  (`per_station`, `csDict`, `group_acc`) are modelled as insertion-ordered
  association lists, matching Python dict iteration order.
* `math.ceil` / `math.floor` on floats are `Int.ceil` / `Int.floor` on `ℚ`.
-/

namespace SumoSnvc

/-! ### Character-list splitting (embedding of Python `str.split("_")`) -/

/-- Split a character list at every occurrence of `sep`, Python `s.split(sep)`
for a one-character separator: always returns a non-empty list of fragments. -/
def splitSep (sep : Char) : List Char → List (List Char)
  | [] => [[]]
  | c :: cs =>
    match splitSep sep cs with
    | [] => [[]]
    | p :: ps => if c = sep then [] :: p :: ps else (c :: p) :: ps

/-- Join fragments with a one-character separator, Python `sep.join(parts)`. -/
def joinSep (sep : Char) : List (List Char) → List Char
  | [] => []
  | [x] => x
  | x :: xs => x ++ sep :: joinSep sep xs

theorem splitSep_ne_nil (sep : Char) (l : List Char) : splitSep sep l ≠ [] := by
  induction l with
  | nil => simp [splitSep]
  | cons c cs ih =>
    simp only [splitSep]
    rcases h : splitSep sep cs with _ | ⟨p, ps⟩
    · simp
    · by_cases hc : c = sep <;> simp [hc]

theorem splitSep_of_not_mem (sep : Char) (l : List Char) (h : sep ∉ l) :
    splitSep sep l = [l] := by
  induction l with
  | nil => rfl
  | cons c cs ih =>
    simp only [List.mem_cons, not_or] at h
    simp only [splitSep, ih h.2]
    have hc : ¬ c = sep := fun hcc => h.1 (by simp [hcc])
    simp [hc]

theorem splitSep_append_sep (sep : Char) (l r : List Char) (h : sep ∉ r) :
    splitSep sep (l ++ sep :: r) = splitSep sep l ++ [r] := by
  induction l with
  | nil => simp [splitSep, splitSep_of_not_mem sep r h]
  | cons c cs ih =>
    have hstep : splitSep sep ((c :: cs) ++ sep :: r)
        = match splitSep sep (cs ++ sep :: r) with
          | [] => [[]]
          | p :: ps => if c = sep then [] :: p :: ps else (c :: p) :: ps := rfl
    rw [hstep, ih]
    rcases hcs : splitSep sep cs with _ | ⟨p, ps⟩
    · exact absurd hcs (splitSep_ne_nil sep cs)
    · by_cases hc : c = sep <;> simp [splitSep, hcs, hc]

theorem joinSep_splitSep (sep : Char) (l : List Char) :
    joinSep sep (splitSep sep l) = l := by
  induction l with
  | nil => rfl
  | cons c cs ih =>
    simp only [splitSep]
    rcases hcs : splitSep sep cs with _ | ⟨p, ps⟩
    · exact absurd hcs (splitSep_ne_nil sep cs)
    · rw [hcs] at ih
      by_cases hc : c = sep
      · subst hc
        cases ps <;> simpa [joinSep] using ih
      · cases ps <;> simp_all [joinSep]

/-- Python `s.split("_")` on a `String`, as a list of `String` fragments. -/
def splitUnderscore (s : String) : List String :=
  (splitSep '_' s.data).map String.mk

/-! ### Station-id helpers

`get_group_id` embeds `reroutings.get_group_id`: extract the group from an id
like `cs_e5_0` (pattern `cs_<group>_<laneIndex>`), returning `""` for the
empty id, the `"NULL"` sentinel, or an id with fewer than three parts.
It never raises. -/

def get_group_id (cs_id : String) : String :=
  if cs_id = "" ∨ cs_id = "NULL" then ""
  else
    let parts := splitUnderscore cs_id
    if 3 ≤ parts.length then parts.getD 1 "" else ""

/-- Embedding of `charging_metrics._extract_edge_and_index`: from
`cs_<edge_id>_<i>` return `(<edge_id>, <i>)`, working when `edge_id`
contains underscores; a missing `cs_` start or a body without an
underscore raises `ValueError`, modelled as `Except.error`. -/
def extract_edge_and_index (station_id : String) : Except String (String × String) :=
  if station_id.data.take 3 ≠ ['c', 's', '_'] then
    Except.error ("Invalid charging station ID: " ++ station_id)
  else
    let body := station_id.data.drop 3
    let parts := splitSep '_' body
    if parts.length < 2 then
      Except.error ("Invalid charging station ID: " ++ station_id)
    else
      Except.ok (String.mk (joinSep '_' parts.dropLast), String.mk (parts.getLastD []))

/-! ### Percentiles -/

/-- Sorting as Python `sorted` (on a linear order the sorted permutation is
unique, so stable insertion sort coincides with Python's Timsort). -/
def sortedQ (values : List ℚ) : List ℚ := values.insertionSort (· ≤ ·)

/-- Python `min(values)` (empty list never queried by the sources' guards). -/
def listMin : List ℚ → ℚ
  | [] => 0
  | x :: xs => xs.foldl min x

/-- Python `max(values)`. -/
def listMax : List ℚ → ℚ
  | [] => 0
  | x :: xs => xs.foldl max x

/-- Embedding of `reroutings._percentile`: inclusive (linearly interpolated)
p-th percentile; `none` for an empty list. -/
def percentile (values : List ℚ) (p : ℚ) : Option ℚ :=
  if values = [] then none
  else
    let arr := sortedQ values
    if arr.length = 1 then some (arr.getD 0 0)
    else
      let k : ℚ := (p / 100) * ((arr.length : ℚ) - 1)
      let f : ℤ := ⌊k⌋
      let c : ℤ := ⌈k⌉
      if f = c then some (arr.getD f.toNat 0)
      else some (arr.getD f.toNat 0 + (arr.getD c.toNat 0 - arr.getD f.toNat 0) * (k - (f : ℚ)))

/-- Embedding of `charging_metrics._percentile_nearest_rank`: nearest-rank
percentile without interpolation; `0` for an empty list. -/
def percentile_nearest_rank (values : List ℚ) (p : ℚ) : ℚ :=
  if values = [] then 0
  else if p ≤ 0 then listMin values
  else if 100 ≤ p then listMax values
  else
    let arr := sortedQ values
    let rank : ℤ := ⌈(p / 100) * (arr.length : ℚ)⌉
    arr.getD (max 1 rank - 1).toNat 0

/-- Comparison definition following the specification's words for the
nearest-rank rule: for a sorted non-empty list of size `n` and percentile
`p ∈ (0, 100)` the element at index `max 1 ⌈p/100 · n⌉ − 1`, with `p ≤ 0`
yielding the minimum and `p ≥ 100` the maximum. -/
def nearestRankRuleSpec (values : List ℚ) (p : ℚ) : ℚ :=
  if p ≤ 0 then listMin values
  else if 100 ≤ p then listMax values
  else (sortedQ values).getD (max 1 ⌈(p / 100) * (values.length : ℚ)⌉ - 1).toNat 0

/-! ### Vehicle search-state tracker (`reroutings.py`) -/

/-- Simulation time, a Python float. -/
abbrev Time := ℚ

/-- Pointwise update of a string-keyed total function (Python `d[k] = v`). -/
def updFn {α : Type} (f : String → α) (k : String) (v : α) : String → α :=
  fun x => if x = k then v else f x

@[simp] theorem updFn_same {α : Type} (f : String → α) (k : String) (v : α) :
    updFn f k v k = v := by simp [updFn]

@[simp] theorem updFn_ne {α : Type} (f : String → α) (k x : String) (v : α)
    (h : x ≠ k) : updFn f k v x = f x := by simp [updFn, h]

/-- Embedding of `reroutings._new_station_data`, keeping the raw accumulating
fields; the derived `avg_*`/`p95_*` fields are only filled at finalize time
and are modelled by `StationFinal` below. -/
structure StationData where
  sessions : ℕ
  search_times : List Time
  reroute_in_times : List Time
  reroute_in_count : ℕ
  reroute_out_times : List Time
  reroute_out_count : ℕ
  sessions_with_in : ℕ
  sessions_with_out : ℕ
deriving Repr, DecidableEq

def newStationData : StationData :=
  { sessions := 0, search_times := [], reroute_in_times := [], reroute_in_count := 0,
    reroute_out_times := [], reroute_out_count := 0,
    sessions_with_in := 0, sessions_with_out := 0 }

/-- The `pending_reroute` record opened on the first inter-group retarget. -/
structure PendingReroute where
  origin_group : String
  origin_station : String
  start_t : Time
deriving Repr, DecidableEq

/-- Embedding of `reroutings._new_veh_state`. -/
structure VehState where
  prev_s : String
  prev_b : String
  search_active : Bool
  search_start_t : Option Time
  search_target_station : String
  search_target_group : String
  pending_reroute : Option PendingReroute
  current_group : String
deriving Repr, DecidableEq

def newVehState : VehState :=
  { prev_s := "", prev_b := "NULL", search_active := false, search_start_t := none,
    search_target_station := "", search_target_group := "",
    pending_reroute := none, current_group := "" }

/-- Embedding of the run-level dict from `reroutings.new_rerouting_data`.
`per_station` / `veh_state` and the two group counters are lazily grown
string-keyed dicts, modelled as total functions whose value on untouched
keys is the freshly-created default. -/
structure RData where
  perStation : String → StationData
  vehState : String → VehState
  groupSessionStarts : String → ℕ
  groupSessionsWithOut : String → ℕ

def new_rerouting_data : RData :=
  { perStation := fun _ => newStationData,
    vehState := fun _ => newVehState,
    groupSessionStarts := fun _ => 0,
    groupSessionsWithOut := fun _ => 0 }

theorem RData.ext' {a b : RData}
    (h1 : a.perStation = b.perStation) (h2 : a.vehState = b.vehState)
    (h3 : a.groupSessionStarts = b.groupSessionStarts)
    (h4 : a.groupSessionsWithOut = b.groupSessionsWithOut) : a = b := by
  cases a; cases b; simp_all

/-- Embedding of `reroutings.tick_update_vehicle`: feed this tick's
stationfinder candidate `now_s`, battery assignment `now_b` and time.
Detects search start, collapses within-group target changes, and opens a
pending reroute on the first inter-group change. -/
def tick_update_vehicle (data : RData) (veh_id : String) (now_s now_b : String)
    (now_time : Time) : RData :=
  let vs := data.vehState veh_id
  -- 1) search start: s goes non-empty while b == "NULL"
  let started := vs.search_active = false ∧ now_s ≠ "" ∧ now_b = "NULL"
  let vs1 : VehState :=
    if started then
      { vs with
        search_active := true,
        search_start_t := some now_time,
        search_target_station := now_s,
        search_target_group := get_group_id now_s,
        current_group := get_group_id now_s }
    else vs
  let starts1 : String → ℕ :=
    if started ∧ get_group_id now_s ≠ "" then
      updFn data.groupSessionStarts (get_group_id now_s)
        (data.groupSessionStarts (get_group_id now_s) + 1)
    else data.groupSessionStarts
  -- 2) while searching, handle target updates
  let vs2 : VehState :=
    if vs1.search_active = true ∧ now_s ≠ "" ∧ now_b = "NULL" then
      let new_group := get_group_id now_s
      let old_group := vs1.search_target_group
      if new_group = old_group then
        { vs1 with search_target_station := now_s, current_group := new_group }
      else
        let pr : Option PendingReroute :=
          match vs1.pending_reroute with
          | none => some { origin_group := old_group,
                           origin_station := vs1.search_target_station,
                           start_t := now_time }
          | some p => some p
        { vs1 with
          pending_reroute := pr,
          search_target_station := now_s,
          search_target_group := new_group,
          current_group := new_group }
    else vs1
  let vs3 := { vs2 with prev_s := now_s, prev_b := now_b }
  { data with
    vehState := updFn data.vehState veh_id vs3,
    groupSessionStarts := starts1 }

/-- Embedding of `reroutings.handle_arrival`: called when a vehicle starts a
stop at charging station `cs_id`; finalizes the search-duration record and a
pending inter-group reroute, then resets the per-session vehicle state. -/
def handle_arrival (data : RData) (veh_id : String) (cs_id : String)
    (now_time : Time) : RData :=
  if cs_id = "" ∨ cs_id = "NULL" then data
  else
    let vs := data.vehState veh_id
    let dest_station := cs_id
    let dest_group := get_group_id dest_station
    -- 1) close search (if active): search time goes to the DESTINATION station
    let data1 : RData :=
      match vs.search_start_t, vs.search_active with
      | some t0, true =>
        let sd := data.perStation dest_station
        let sd' : StationData :=
          { sd with
            sessions := sd.sessions + 1,
            search_times := sd.search_times ++ [now_time - t0] }
        { data with perStation := updFn data.perStation dest_station sd' }
      | _, _ => data
    -- 2) finalize a pending inter-group reroute as one OUT (origin) + one IN (dest)
    let data2 : RData :=
      match vs.pending_reroute with
      | none => data1
      | some p =>
        if dest_group = p.origin_group then data1
        else
          let dur := now_time - p.start_t
          let dataA : RData :=
            if p.origin_station ≠ "" then
              let so := data1.perStation p.origin_station
              let so' : StationData :=
                { so with
                  reroute_out_times := so.reroute_out_times ++ [dur],
                  reroute_out_count := so.reroute_out_count + 1,
                  sessions_with_out := so.sessions_with_out + 1 }
              { data1 with perStation := updFn data1.perStation p.origin_station so' }
            else data1
          let sd := dataA.perStation dest_station
          let sd' : StationData :=
            { sd with
              reroute_in_times := sd.reroute_in_times ++ [dur],
              reroute_in_count := sd.reroute_in_count + 1,
              sessions_with_in := sd.sessions_with_in + 1 }
          let dataB : RData :=
            { dataA with perStation := updFn dataA.perStation dest_station sd' }
          if p.origin_group ≠ "" then
            let outs' := updFn dataB.groupSessionsWithOut p.origin_group
              (dataB.groupSessionsWithOut p.origin_group + 1)
            { dataB with groupSessionsWithOut := outs' }
          else dataB
    -- 3) reset per-session state for this vehicle
    -- pending_reroute was already cleared in both branches of step 2 when it
    -- was open; with no pending reroute it is `none` throughout. The reset of
    -- the five listed fields is line-for-line the Python step 3.
    let vs3 : VehState :=
      { vs with
        search_active := false,
        search_start_t := none,
        search_target_station := "",
        search_target_group := "",
        current_group := "",
        pending_reroute := none }
    { data2 with vehState := updFn data2.vehState veh_id vs3 }

/-- Run a sequence of per-tick observations `(now_s, now_time)` for one
vehicle whose battery assignment stays `"NULL"` (still searching). -/
def runTicks (data : RData) (veh_id : String) (obs : List (String × Time)) : RData :=
  obs.foldl (fun d ob => tick_update_vehicle d veh_id ob.1 "NULL" ob.2) data

/-! ### End-of-run finalize (`reroutings.finalize_json`)

For finalize the `per_station` dict is iterated, so it is modelled as an
insertion-ordered association list `List (String × StationData)`. -/

/-- Python `sum(l)` over floats. -/
def sumQ (l : List ℚ) : ℚ := l.foldl (· + ·) 0

/-- Python `sum(l)/len(l) if l else None`. -/
def avgOpt (l : List ℚ) : Option ℚ :=
  if l = [] then none else some (sumQ l / (l.length : ℚ))

/-- The per-station derived block computed by the first loop of
`finalize_json`: averages and interpolated 95th percentiles of the three
duration lists. -/
structure StationFinal where
  avg_search_time : Option ℚ
  p95_search_time : Option ℚ
  avg_reroute_in_time : Option ℚ
  p95_reroute_in_time : Option ℚ
  avg_reroute_out_time : Option ℚ
  p95_reroute_out_time : Option ℚ
deriving Repr, DecidableEq

/-- Embedding of the per-station aggregate computation in `finalize_json`. -/
def stationFinalize (sd : StationData) : StationFinal :=
  { avg_search_time := avgOpt sd.search_times,
    p95_search_time := percentile sd.search_times 95,
    avg_reroute_in_time := avgOpt sd.reroute_in_times,
    p95_reroute_in_time := percentile sd.reroute_in_times 95,
    avg_reroute_out_time := avgOpt sd.reroute_out_times,
    p95_reroute_out_time := percentile sd.reroute_out_times 95 }

/-- The per-group accumulator `group_acc[g]` of `finalize_json`. -/
structure GroupAcc where
  sessions : ℕ
  search_times_all : List ℚ
  reroute_in_times_all : List ℚ
  reroute_out_times_all : List ℚ
  reroute_in_count_total : ℕ
  reroute_out_count_total : ℕ
  sessions_with_in_total : ℕ
  sessions_with_out_total : ℕ
deriving Repr, DecidableEq

def emptyGroupAcc : GroupAcc :=
  { sessions := 0, search_times_all := [], reroute_in_times_all := [],
    reroute_out_times_all := [], reroute_in_count_total := 0,
    reroute_out_count_total := 0, sessions_with_in_total := 0,
    sessions_with_out_total := 0 }

/-- Extending a group accumulator with one station's lists and counters
(the body of the per-group loop of `finalize_json`). -/
def extendGroupAcc (ga : GroupAcc) (sd : StationData) : GroupAcc :=
  { sessions := ga.sessions + sd.sessions,
    search_times_all := ga.search_times_all ++ sd.search_times,
    reroute_in_times_all := ga.reroute_in_times_all ++ sd.reroute_in_times,
    reroute_out_times_all := ga.reroute_out_times_all ++ sd.reroute_out_times,
    reroute_in_count_total := ga.reroute_in_count_total + sd.reroute_in_count,
    reroute_out_count_total := ga.reroute_out_count_total + sd.reroute_out_count,
    sessions_with_in_total := ga.sessions_with_in_total + sd.sessions_with_in,
    sessions_with_out_total := ga.sessions_with_out_total + sd.sessions_with_out }

/-- Update of `group_acc`: create the entry on first reference, then extend
(ordered association list, mirroring Python dict insertion order). -/
def updateGroupAcc (acc : List (String × GroupAcc)) (g : String) (sd : StationData) :
    List (String × GroupAcc) :=
  match acc with
  | [] => [(g, extendGroupAcc emptyGroupAcc sd)]
  | (g', ga) :: rest =>
    if g' = g then (g', extendGroupAcc ga sd) :: rest
    else (g', ga) :: updateGroupAcc rest g sd

/-- The per-group accumulation loop of `finalize_json`: stations whose id
yields an empty group are skipped (`if not g: continue`). -/
def groupAccumulate (per_station : List (String × StationData)) :
    List (String × GroupAcc) :=
  per_station.foldl
    (fun acc p =>
      let g := get_group_id p.1
      if g = "" then acc else updateGroupAcc acc g p.2)
    []

/-- One `per_group[g]` entry of the final JSON (numeric fields only). -/
structure GroupFinal where
  sessions : ℕ
  avg_search_time : Option ℚ
  p95_search_time : Option ℚ
  avg_reroute_in_time : Option ℚ
  p95_reroute_in_time : Option ℚ
  avg_reroute_out_time : Option ℚ
  p95_reroute_out_time : Option ℚ
  reroute_in_count_total : ℕ
  reroute_out_count_total : ℕ
  percent_reroute_in_sessions : Option ℚ
  percent_reroute_out_sessions : Option ℚ
deriving Repr, DecidableEq

/-- Embedding of the per-group entry computation of `finalize_json`. -/
def groupFinalize (data : RData) (g : String) (ga : GroupAcc) : GroupFinal :=
  { sessions := ga.sessions,
    avg_search_time := avgOpt ga.search_times_all,
    p95_search_time := percentile ga.search_times_all 95,
    avg_reroute_in_time := avgOpt ga.reroute_in_times_all,
    p95_reroute_in_time := percentile ga.reroute_in_times_all 95,
    avg_reroute_out_time := avgOpt ga.reroute_out_times_all,
    p95_reroute_out_time := percentile ga.reroute_out_times_all 95,
    reroute_in_count_total := ga.reroute_in_count_total,
    reroute_out_count_total := ga.reroute_out_count_total,
    percent_reroute_in_sessions :=
      if ga.sessions ≠ 0 then some ((ga.sessions_with_in_total : ℚ) / (ga.sessions : ℚ))
      else none,
    percent_reroute_out_sessions :=
      if data.groupSessionStarts g ≠ 0 then
        some ((data.groupSessionsWithOut g : ℚ) / (data.groupSessionStarts g : ℚ))
      else none }

/-- The run-wide totals block of `finalize_json`: concatenation across all
stations of `per_station` (in iteration order). -/
structure TotalsFinal where
  avg_search_time : Option ℚ
  p95_search_time : Option ℚ
  avg_reroute_in_time : Option ℚ
  p95_reroute_in_time : Option ℚ
  avg_reroute_out_time : Option ℚ
  p95_reroute_out_time : Option ℚ
  reroute_in_count_total : ℕ
  reroute_out_count_total : ℕ
deriving Repr, DecidableEq

/-- Embedding of the totals computation of `finalize_json` (the two
participation ratios are omitted here; they reuse the group counters). -/
def totalsFinalize (per_station : List (String × StationData)) : TotalsFinal :=
  let all_search_times := per_station.foldl (fun a p => a ++ p.2.search_times) []
  let all_rin_times := per_station.foldl (fun a p => a ++ p.2.reroute_in_times) []
  let all_rout_times := per_station.foldl (fun a p => a ++ p.2.reroute_out_times) []
  { avg_search_time := avgOpt all_search_times,
    p95_search_time := percentile all_search_times 95,
    avg_reroute_in_time := avgOpt all_rin_times,
    p95_reroute_in_time := percentile all_rin_times 95,
    avg_reroute_out_time := avgOpt all_rout_times,
    p95_reroute_out_time := percentile all_rout_times 95,
    reroute_in_count_total := per_station.foldl (fun a p => a + p.2.reroute_in_count) 0,
    reroute_out_count_total := per_station.foldl (fun a p => a + p.2.reroute_out_count) 0 }

/-! ### Power allocation controller (`simulation.py`)

The traci station/vehicle parameter store is modelled as a `SimState`.
`groupPower` is read through Python `int(...)`, so it is carried as `ℤ`. -/

/-- Per-charging-station traci parameters used by the controller. -/
structure CSParams where
  group : String
  groupPower : ℤ
  desiredPower : ℚ
  aliquotPowerAdjustment : ℚ
  power : ℚ
  allowedPowerOutput : ℚ

/-- Per-vehicle traci parameters used by the controller (the battery device
and the vehicle type's intake limit). -/
structure VehParams where
  csId : String
  actualBatteryCapacity : ℚ
  maximumBatteryCapacity : ℚ
  allowedPowerIntake : ℚ

structure SimState where
  cs : String → CSParams
  veh : String → VehParams

/-- Model of `traci.chargingstation.setParameter` as one field-update. -/
def SimState.setCS (st : SimState) (k : String) (c : CSParams) : SimState :=
  { st with cs := updFn st.cs k c }

/-- Python `csDict[group] += [csId]` / `csDict[group] = [csId]`: append to the
entry of `group`, creating it at the end on first reference (Python dict
insertion order). -/
def addToGroup (d : List (String × List String)) (g c : String) :
    List (String × List String) :=
  match d with
  | [] => [(g, [c])]
  | (g', l) :: rest =>
    if g' = g then (g', l ++ [c]) :: rest else (g', l) :: addToGroup rest g c

/-- First loop of `calculateAliquotPowerAdjustments`: partition the charging
stations of the current occupants by their `group` parameter. -/
def buildCsDict (st : SimState) (vehList : List String) :
    List (String × List String) :=
  vehList.foldl
    (fun d v =>
      let csId := (st.veh v).csId
      addToGroup d ((st.cs csId).group) csId)
    []

/-- Body of the second loop of `calculateAliquotPowerAdjustments` for one
group's station list: read the cap from the first station, sum the stored
`desiredPower` values, compute the fair-share factor, and store it on every
station of the list. -/
def applyGroupFactor (s : SimState) (csGroup : List String) : SimState :=
  match csGroup with
  | [] => s
  | c0 :: _ =>
    let maxPower : ℚ := ((s.cs c0).groupPower : ℚ)
    let sumDesired : ℚ := csGroup.foldl (fun a c => a + (s.cs c).desiredPower) 0
    let factor : ℚ := if maxPower < sumDesired then maxPower / sumDesired else 1
    csGroup.foldl
      (fun s' c => s'.setCS c { s'.cs c with aliquotPowerAdjustment := factor })
      s

/-- Embedding of `simulation.calculateAliquotPowerAdjustments` (phase 1). -/
def calculateAliquotPowerAdjustments (st : SimState) (vehList : List String) :
    SimState :=
  (buildCsDict st vehList).foldl (fun s e => applyGroupFactor s e.2) st

/-- The three ceilings and their minimum, as computed inside
`setChargingStationPowers`: state-of-charge taper ceiling, station rated
output, vehicle intake limit. -/
def basePower (s : SimState) (v : String) : ℚ :=
  let vp := s.veh v
  let maxPsoc : ℚ := 11 / 10 * vp.maximumBatteryCapacity *
    (110 - 100 * vp.actualBatteryCapacity / vp.maximumBatteryCapacity) / 33
  let maxPcp : ℚ := (s.cs vp.csId).allowedPowerOutput
  let maxPev : ℚ := vp.allowedPowerIntake
  min (min maxPsoc maxPcp) maxPev

/-- Embedding of `simulation.setChargingStationPowers` (phase 2): for each
occupant write the unscaled base to `power` and `desiredPower`, then
overwrite `power` with `base × aliquotPowerAdjustment`. -/
def setChargingStationPowers (st : SimState) (vehList : List String) : SimState :=
  vehList.foldl
    (fun s v =>
      let csId := (s.veh v).csId
      let power := basePower s v
      let s1 := s.setCS csId { s.cs csId with power := power }
      let s2 := s1.setCS csId { s1.cs csId with desiredPower := power }
      let factor := (s2.cs csId).aliquotPowerAdjustment
      let actualPower := power * factor
      s2.setCS csId { s2.cs csId with power := actualPower })
    st

/-- The stations (with multiplicity, in `vehList` order) of the occupants
whose station's `group` parameter is `g`. -/
def groupStations (st : SimState) (vehList : List String) (g : String) :
    List String :=
  (vehList.map (fun v => (st.veh v).csId)).filter (fun c => (st.cs c).group = g)

/-- The occupants of group `g` (those whose assigned station belongs to `g`). -/
def groupOccupants (st : SimState) (vehList : List String) (g : String) :
    List String :=
  vehList.filter (fun v => (st.cs ((st.veh v).csId)).group = g)

/-! ### Session waits and queues (`charging_metrics.py`) -/

/-- One `chargingEvent` row: `(station_id, vehicle, chargingBegin,
chargingEnd, totalEnergy)`. -/
structure ChargingEvent where
  station_id : String
  vehicle : String
  chargingBegin : Time
  chargingEnd : Time
  totalEnergy : ℚ
deriving Repr, DecidableEq

/-- The `while lo <= hi` binary search of `_find_queue_entry_time`, searching
the last sample index with time ≤ `t_end`. Python's `lo`/`hi` with `hi`
possibly reaching `-1` are carried as `lo` and `hi1 = hi + 1` in `ℕ`
(`lo ≤ hi ↔ lo < hi1`, `mid = (lo + hi) // 2 = (lo + hi1 - 1) / 2`). -/
def bsearchLastLe (times : List Time) (t_end : Time) (lo hi1 : ℕ)
    (acc : Option ℕ) : Option ℕ :=
  if h : lo < hi1 then
    let mid := (lo + hi1 - 1) / 2
    if times.getD mid 0 ≤ t_end then bsearchLastLe times t_end (mid + 1) hi1 (some mid)
    else bsearchLastLe times t_end lo mid acc
  else acc
termination_by hi1 - lo
decreasing_by
  · omega
  · omega

/-- The first walk-back loop of `_find_queue_entry_time`: from index `i`
(known in-zone), step back while the previous sample is still in the zone,
returning the first index of that in-zone run. -/
def walkBackInZone (lanes : List String) (in_zone : String → Bool) : ℕ → ℕ
  | 0 => 0
  | i + 1 => if in_zone (lanes.getD i "") then walkBackInZone lanes in_zone i else i + 1

/-- The second walk-back loop of `_find_queue_entry_time`: from index `i`
(known out-of-zone), scan back for a sample in the zone whose predecessor is
not, returning its time; `none` if the scan exhausts the list. -/
def walkBackFindEntry (samples : List (Time × String)) (in_zone : String → Bool) :
    ℕ → Option Time
  | 0 => none
  | i + 1 =>
    if in_zone (samples.getD (i + 1) (0, "")).2 ∧
        ¬ in_zone (samples.getD i (0, "")).2 then
      some (samples.getD (i + 1) (0, "")).1
    else walkBackFindEntry samples in_zone i

/-- Embedding of `charging_metrics._find_queue_entry_time`: first time the
vehicle is inside the queue zone before `t_end`; `none` with no samples or
no prior sample. -/
def find_queue_entry_time (samples : List (Time × String)) (in_zone : String → Bool)
    (t_end : Time) : Option Time :=
  if samples = [] then none
  else
    match bsearchLastLe (samples.map Prod.fst) t_end 0 samples.length none with
    | none => none
    | some i =>
      if in_zone (samples.getD i (0, "")).2 then
        some (samples.getD (walkBackInZone (samples.map Prod.snd) in_zone i) (0, "")).1
      else walkBackFindEntry samples in_zone i

/-- The queue-zone membership test built in `_compute_session_waits_and_queues`:
the access lane `to_cs_<edge>_0` plus the station lanes `cs_lanes_<edge>_<k>`
for `k < n_cs`. -/
def inQueueZone (edge_id : String) (n_cs : ℕ) (lane : String) : Bool :=
  lane = "to_cs_" ++ edge_id ++ "_0" ∨
    (List.range n_cs).any (fun k => lane = "cs_lanes_" ++ edge_id ++ "_" ++ toString k)

/-- The per-session body of `_compute_session_waits_and_queues`: waits keyed
by station (appended only when a queue-entry time is found) and queues keyed
by station (always appended: the max zero-speed count in the window, or 0).
`series` is the per-vehicle FCD sample list, `laneZero` the
lane → (time, stopped-count) index. -/
def sessionStep (series : String → List (Time × String))
    (laneZero : String → List (Time × ℕ)) (ecsc : String → ℕ)
    (acc : (String → List ℚ) × (String → List ℕ)) (ev : ChargingEvent) :
    Except String ((String → List ℚ) × (String → List ℕ)) :=
  match extract_edge_and_index ev.station_id with
  | Except.error e => Except.error e
  | Except.ok (edge_id, idx) =>
    let n_cs := max 1 (ecsc edge_id)
    let in_zone := inQueueZone edge_id n_cs
    let samples := series ev.vehicle
    let waits' : String → List ℚ :=
      match find_queue_entry_time samples in_zone ev.chargingBegin with
      | some t_enter =>
        updFn acc.1 ev.station_id
          (acc.1 ev.station_id ++ [max 0 (ev.chargingBegin - t_enter)])
      | none => acc.1
    let station_lane := "cs_lanes_" ++ edge_id ++ "_" ++ idx
    let lane_counts := laneZero station_lane
    let qmax : ℕ :=
      if lane_counts ≠ [] then
        lane_counts.foldl
          (fun q tc =>
            if ev.chargingBegin ≤ tc.1 ∧ tc.1 ≤ ev.chargingEnd ∧ q < tc.2 then tc.2
            else q)
          0
      else 0
    let queues' := updFn acc.2 ev.station_id (acc.2 ev.station_id ++ [qmax])
    Except.ok (waits', queues')

/-- Embedding of `charging_metrics._compute_session_waits_and_queues`
(given the prebuilt FCD series and lane index): fold `sessionStep` over the
charging events; a malformed station id aborts with the `ValueError`. -/
def compute_session_waits_and_queues (events : List ChargingEvent)
    (series : String → List (Time × String)) (laneZero : String → List (Time × ℕ))
    (ecsc : String → ℕ) :
    Except String ((String → List ℚ) × (String → List ℕ)) :=
  events.foldlM (sessionStep series laneZero ecsc) (fun _ => [], fun _ => [])

/-- Station wait list of a waits-and-queues result (empty on error). -/
def waitsAt (r : Except String ((String → List ℚ) × (String → List ℕ)))
    (station : String) : List ℚ :=
  match r with
  | Except.ok (w, _) => w station
  | Except.error _ => []

/-- Station queue list of a waits-and-queues result (empty on error). -/
def queuesAt (r : Except String ((String → List ℚ) × (String → List ℕ)))
    (station : String) : List ℕ :=
  match r with
  | Except.ok (_, q) => q station
  | Except.error _ => []

/-! ### Charging-metrics aggregation (`charging_metrics._compute_group_and_totals`)

Slice of the station metrics limited to the fields the aggregation claims
touch: per-station energy total (whose list length is the station count `n`
of the source), session wait times, and per-session queue lengths. -/

structure ChStationMetrics where
  total_energy_charged : ℚ
  session_wait_times : List ℚ
  queues : List ℚ
deriving Repr, DecidableEq

/-- Per-station derived wait stats (`avg_session_wait_time`,
`p95_session_wait_time`), zero on an empty list. -/
def chStationWaitAvg (s : ChStationMetrics) : ℚ :=
  if s.session_wait_times = [] then 0
  else sumQ s.session_wait_times / (s.session_wait_times.length : ℚ)

def chStationWaitP95 (s : ChStationMetrics) : ℚ :=
  if s.session_wait_times = [] then 0
  else percentile_nearest_rank s.session_wait_times 95

/-- The group accumulator of `_compute_group_and_totals` (claim-relevant
fields): per-station energies (one entry per station, so `energy.length` is
the source's `n`), per-station wait averages and p95s, and the
concatenation of all queue lists. -/
structure ChGroupAcc where
  energy : List ℚ
  waits_avg : List ℚ
  waits_p95 : List ℚ
  queues_all : List ℚ
deriving Repr, DecidableEq

def chEmptyGroupAcc : ChGroupAcc :=
  { energy := [], waits_avg := [], waits_p95 := [], queues_all := [] }

def chExtendGroupAcc (ga : ChGroupAcc) (s : ChStationMetrics) : ChGroupAcc :=
  { energy := ga.energy ++ [s.total_energy_charged],
    waits_avg := ga.waits_avg ++ [chStationWaitAvg s],
    waits_p95 := ga.waits_p95 ++ [chStationWaitP95 s],
    queues_all := ga.queues_all ++ s.queues }

def chUpdateGroupAcc (acc : List (String × ChGroupAcc)) (g : String)
    (s : ChStationMetrics) : List (String × ChGroupAcc) :=
  match acc with
  | [] => [(g, chExtendGroupAcc chEmptyGroupAcc s)]
  | (g', ga) :: rest =>
    if g' = g then (g', chExtendGroupAcc ga s) :: rest
    else (g', ga) :: chUpdateGroupAcc rest g s

/-- The group-accumulation loop: the station id is decomposed by
`_extract_edge_and_index`, which raises on a malformed id. -/
def chGroupAccumulate (stations : List (String × ChStationMetrics)) :
    Except String (List (String × ChGroupAcc)) :=
  stations.foldlM
    (fun acc p => do
      let ei ← extract_edge_and_index p.1
      pure (chUpdateGroupAcc acc ei.1 p.2))
    []

/-- One `per_group` entry (claim-relevant fields) of
`_compute_group_and_totals`. -/
structure ChGroupEntry where
  total_energy_charged : ℚ
  avg_energy_charged : ℚ
  avg_queue_length : ℚ
  p95_queue_length : ℚ
  avg_session_wait_time : ℚ
  p95_session_wait_time : ℚ
  number_of_stations_used : ℕ
deriving Repr, DecidableEq

def chGroupEntryOf (ga : ChGroupAcc) : ChGroupEntry :=
  let used := ga.energy.length
  let n : ℚ := ((if 0 < used then used else 1 : ℕ) : ℚ)
  { total_energy_charged := sumQ ga.energy,
    avg_energy_charged := sumQ ga.energy / n,
    avg_queue_length :=
      if ga.queues_all = [] then 0 else sumQ ga.queues_all / (ga.queues_all.length : ℚ),
    p95_queue_length :=
      if ga.queues_all = [] then 0 else percentile_nearest_rank ga.queues_all 95,
    avg_session_wait_time := sumQ ga.waits_avg / n,
    p95_session_wait_time := sumQ ga.waits_p95 / n,
    number_of_stations_used := used }

/-- The claim-relevant totals of `_compute_group_and_totals`: queue stats
over the concatenation of all stations' queue lists, wait stats as the mean
over stations of the per-station stats. -/
structure ChTotals where
  avg_queue_length : ℚ
  p95_queue_length : ℚ
  avg_session_wait_time : ℚ
  p95_session_wait_time : ℚ
deriving Repr, DecidableEq

def chTotalsOf (stations : List (String × ChStationMetrics)) : ChTotals :=
  let num := stations.length
  let all_queues := stations.foldl (fun a p => a ++ p.2.queues) []
  { avg_queue_length :=
      if all_queues = [] then 0 else sumQ all_queues / (all_queues.length : ℚ),
    p95_queue_length :=
      if all_queues = [] then 0 else percentile_nearest_rank all_queues 95,
    avg_session_wait_time :=
      if num ≠ 0 then
        sumQ (stations.map (fun p => chStationWaitAvg p.2)) / (num : ℚ)
      else 0,
    p95_session_wait_time :=
      if num ≠ 0 then
        sumQ (stations.map (fun p => chStationWaitP95 p.2)) / (num : ℚ)
      else 0 }

/-! ### Claims -/

/-- C9: calling `handle_arrival` with an empty string or the `"NULL"`
sentinel as the station id leaves the entire tracker state unchanged: no
session is closed, no record or counter is appended anywhere, and the
vehicle's search state (search_active, search_start_t, pending reroute) is
not reset. -/
theorem claim_C9_sentinel_arrival_noop (data : RData) (veh_id cs_id : String)
    (now_time : Time) (h : cs_id = "" ∨ cs_id = "NULL") :
    handle_arrival data veh_id cs_id now_time = data := by
  unfold handle_arrival
  rw [if_pos h]

/-- Witness for C9 at a concrete tracker state with an active search and a
pending reroute, arriving with the `"NULL"` sentinel. -/
theorem claim_C9_sentinel_arrival_noop_witness :
    (("NULL" : String) = "" ∨ ("NULL" : String) = "NULL") ∧
      handle_arrival
        { new_rerouting_data with
          vehState := updFn new_rerouting_data.vehState "veh1"
            { newVehState with
              search_active := true,
              search_start_t := some 3,
              search_target_station := "cs_e5_0",
              search_target_group := "e5",
              pending_reroute := some ⟨"e1", "cs_e1_0", 1⟩,
              current_group := "e5" } }
        "veh1" "NULL" 7
      = { new_rerouting_data with
          vehState := updFn new_rerouting_data.vehState "veh1"
            { newVehState with
              search_active := true,
              search_start_t := some 3,
              search_target_station := "cs_e5_0",
              search_target_group := "e5",
              pending_reroute := some ⟨"e1", "cs_e1_0", 1⟩,
              current_group := "e5" } } :=
  ⟨Or.inr rfl, claim_C9_sentinel_arrival_noop _ "veh1" "NULL" 7 (Or.inr rfl)⟩

/-- C10: for every edge id `e` (possibly containing underscores) and every
non-empty index string `i` containing no underscore,
`_extract_edge_and_index` applied to `"cs_" ++ e ++ "_" ++ i` returns
exactly `(e, i)`: a round-trip between station-id composition and
decomposition. -/
theorem claim_C10_extract_roundtrip (e i : String) (hne : i.data ≠ [])
    (hus : '_' ∉ i.data) :
    extract_edge_and_index ("cs_" ++ e ++ "_" ++ i) = Except.ok (e, i) := by
  have hdata : ("cs_" ++ e ++ "_" ++ i).data
      = 'c' :: 's' :: '_' :: (e.data ++ '_' :: i.data) := by
    have h1 : ("cs_" : String).data = ['c', 's', '_'] := rfl
    have h2 : ("_" : String).data = ['_'] := rfl
    simp [String.data_append, h1, h2]
  have hsplit : splitSep '_' (e.data ++ '_' :: i.data)
      = splitSep '_' e.data ++ [i.data] := splitSep_append_sep '_' e.data i.data hus
  have hnn := splitSep_ne_nil '_' e.data
  have hlen : ¬ (splitSep '_' e.data ++ [i.data]).length < 2 := by
    have := List.length_pos.mpr hnn
    simp only [List.length_append, List.length_cons, List.length_nil]
    omega
  unfold extract_edge_and_index
  rw [hdata]
  simp only [List.take_succ_cons, List.take_zero, List.drop_succ_cons, List.drop_zero,
    ne_eq, not_true_eq_false, if_false, hsplit]
  rw [if_neg hlen]
  rw [List.dropLast_concat, List.getLastD_concat, joinSep_splitSep]

/-- Witness for C10 at the edge id `"e_5a"` (containing an underscore) and
index `"0"`. -/
theorem claim_C10_extract_roundtrip_witness :
    ("0" : String).data ≠ [] ∧ '_' ∉ ("0" : String).data ∧
      extract_edge_and_index ("cs_" ++ "e_5a" ++ "_" ++ "0")
        = Except.ok ("e_5a", "0") :=
  ⟨by decide, by decide,
    claim_C10_extract_roundtrip "e_5a" "0" (by decide) (by decide)⟩

/-- C7 counterexample: the id `"a_b_c"` does not decompose under the
`cs_<group>_<index>` convention (it does not start with `"cs_"`), yet the
tracker's decomposition function `get_group_id` raises no error and silently
assigns it the group `"b"` — refuting the claim that every operation
consuming station ids rejects non-conforming ids with a hard error. -/
theorem claim_C7_counterexample :
    ("a_b_c" : String).data.take 3 ≠ ['c', 's', '_'] ∧
      get_group_id "a_b_c" = "b" ∧ get_group_id "a_b_c" ≠ "" := by
  refine ⟨by decide, ?_, ?_⟩ <;> decide

/-- C7 amended: the aggregator's decomposition function
`_extract_edge_and_index` does reject with a hard error (a raised
`ValueError`) every station id that does not start with `"cs_"` or whose
remainder has no underscore; but the tracker's `get_group_id` never raises:
it returns the empty-string sentinel for the empty id, the `"NULL"`
sentinel, and ids with fewer than three underscore-separated parts, and
otherwise returns the second part without validating the `"cs_"` prefix. -/
theorem claim_C7_amended (s : String)
    (h : s.data.take 3 ≠ ['c', 's', '_'] ∨ (splitSep '_' (s.data.drop 3)).length < 2) :
    (∃ msg, extract_edge_and_index s = Except.error msg) ∧
      get_group_id "" = "" ∧ get_group_id "NULL" = "" ∧
      (∀ s' : String, (splitUnderscore s').length < 3 → get_group_id s' = "") := by
  refine ⟨?_, rfl, rfl, ?_⟩
  · unfold extract_edge_and_index
    rcases h with h | h
    · exact ⟨_, by rw [if_pos h]⟩
    · by_cases hp : s.data.take 3 ≠ ['c', 's', '_']
      · exact ⟨_, by rw [if_pos hp]⟩
      · refine ⟨"Invalid charging station ID: " ++ s, ?_⟩
        rw [if_neg hp]
        simp only [if_pos h]
  · intro s' hlt
    unfold get_group_id
    by_cases hs : s' = "" ∨ s' = "NULL"
    · rw [if_pos hs]
    · rw [if_neg hs]
      simp only []
      rw [if_neg (by omega)]

/-- Witness for C7 at the non-conforming id `"bad"`. -/
theorem claim_C7_amended_witness :
    (("bad" : String).data.take 3 ≠ ['c', 's', '_'] ∨
        (splitSep '_' (("bad" : String).data.drop 3)).length < 2) ∧
      ((∃ msg, extract_edge_and_index "bad" = Except.error msg) ∧
        get_group_id "" = "" ∧ get_group_id "NULL" = "" ∧
        (∀ s' : String, (splitUnderscore s').length < 3 → get_group_id s' = "")) :=
  ⟨Or.inl (by decide), claim_C7_amended "bad" (Or.inl (by decide))⟩

/-- C1 counterexample: the rerouting report's persisted per-station
`p95_search_time` for the duration list `[1..10]` is the interpolated value
`9.55`, not the nearest-rank value `10` the claim requires for every
persisted 95th percentile. -/
theorem claim_C1_counterexample :
    (stationFinalize
        { newStationData with search_times := [1, 2, 3, 4, 5, 6, 7, 8, 9, 10] }).p95_search_time
        = some (191 / 20) ∧ (191 : ℚ) / 20 ≠ 10 := by
  constructor
  · have hsort : sortedQ [1, 2, 3, 4, 5, 6, 7, 8, 9, 10]
        = [1, 2, 3, 4, 5, 6, 7, 8, 9, 10] := by decide
    have hf : (⌊(171 : ℚ) / 20⌋ : ℤ) = 8 := by
      rw [Int.floor_eq_iff]; norm_num
    have hc : (⌈(171 : ℚ) / 20⌉ : ℤ) = 9 := by
      rw [Int.ceil_eq_iff]; norm_num
    show percentile [1, 2, 3, 4, 5, 6, 7, 8, 9, 10] 95 = some (191 / 20)
    simp only [percentile, hsort]
    norm_num [hf, hc]
    refine ⟨by decide, ?_⟩
    norm_num [show Int.toNat 8 = 8 from rfl, show Int.toNat 9 = 9 from rfl]
  · norm_num

/-- C1 amended: the persisted wait and queue statistics (charging metrics
report) do follow the claimed nearest-rank rule — their percentile function
agrees with the rule "sorted list, index `max 1 ⌈p/100·n⌉ − 1`, `p ≤ 0` min,
`p ≥ 100` max", and on `[1..10]` yields `10` at p=95 and `5` at p=50 — but
the search-duration and reroute-in/out 95th percentiles of the rerouting
report are computed by `_percentile`, which linearly interpolates. -/
theorem claim_C1_amended_nearest_rank (values : List ℚ) (p : ℚ) (h : values ≠ []) :
    percentile_nearest_rank values p = nearestRankRuleSpec values p ∧
      percentile_nearest_rank [1, 2, 3, 4, 5, 6, 7, 8, 9, 10] 95 = 10 ∧
      percentile_nearest_rank [1, 2, 3, 4, 5, 6, 7, 8, 9, 10] 50 = 5 := by
  refine ⟨?_, ?_, ?_⟩
  · unfold percentile_nearest_rank nearestRankRuleSpec sortedQ
    rw [if_neg h]
    simp only [List.length_insertionSort]
  · have hsort : sortedQ [1, 2, 3, 4, 5, 6, 7, 8, 9, 10]
        = [1, 2, 3, 4, 5, 6, 7, 8, 9, 10] := by decide
    have hc : (⌈(19 : ℚ) / 2⌉ : ℤ) = 10 := by
      rw [Int.ceil_eq_iff]; norm_num
    simp only [percentile_nearest_rank, hsort]
    norm_num [hc]
    decide
  · have hsort : sortedQ [1, 2, 3, 4, 5, 6, 7, 8, 9, 10]
        = [1, 2, 3, 4, 5, 6, 7, 8, 9, 10] := by decide
    have hc : (⌈(5 : ℚ)⌉ : ℤ) = 5 := by
      rw [Int.ceil_eq_iff]; norm_num
    simp only [percentile_nearest_rank, hsort]
    norm_num [hc]
    decide

/-- Witness for C1 (amended) at the list `[1..10]`. -/
theorem claim_C1_amended_nearest_rank_witness :
    ([1, 2, 3, 4, 5, 6, 7, 8, 9, 10] : List ℚ) ≠ [] ∧
      (percentile_nearest_rank [1, 2, 3, 4, 5, 6, 7, 8, 9, 10] 95
          = nearestRankRuleSpec [1, 2, 3, 4, 5, 6, 7, 8, 9, 10] 95 ∧
        percentile_nearest_rank [1, 2, 3, 4, 5, 6, 7, 8, 9, 10] 95 = 10 ∧
        percentile_nearest_rank [1, 2, 3, 4, 5, 6, 7, 8, 9, 10] 50 = 5) :=
  ⟨by decide, claim_C1_amended_nearest_rank _ 95 (by decide)⟩

/-- C8 counterexample: for a session whose vehicle has no position/speed
samples at all, the aggregator records no wait-time value — but it does
record a queue value (`0`) for that session, refuting "no queue value". -/
theorem claim_C8_counterexample :
    waitsAt
        (compute_session_waits_and_queues [⟨"cs_e5_0", "v1", 10, 20, 5⟩]
          (fun _ => []) (fun _ => []) (fun _ => 1)) "cs_e5_0" = [] ∧
      queuesAt
        (compute_session_waits_and_queues [⟨"cs_e5_0", "v1", 10, 20, 5⟩]
          (fun _ => []) (fun _ => []) (fun _ => 1)) "cs_e5_0" = [0] ∧
      ([0] : List ℕ) ≠ [] := by
  refine ⟨?_, ?_, by decide⟩ <;> decide

/-- C8 amended: for every charging session whose vehicle yields no
queue-entry time (no samples, or no sample preceding the session's deadline
in the queue zone), the aggregator records no wait-time value, records a
queue value for the session nevertheless (the maximum zero-speed count of
the station lane over the session window, `0` when the lane index is
empty), and continues processing the remaining sessions of the run. -/
theorem claim_C8_amended (series : String → List (Time × String))
    (laneZero : String → List (Time × ℕ)) (ecsc : String → ℕ)
    (acc : (String → List ℚ) × (String → List ℕ)) (ev : ChargingEvent)
    (e i : String)
    (hid : extract_edge_and_index ev.station_id = Except.ok (e, i))
    (hfind : find_queue_entry_time (series ev.vehicle)
        (inQueueZone e (max 1 (ecsc e))) ev.chargingBegin = none) :
    ∃ q : ℕ,
      sessionStep series laneZero ecsc acc ev
          = Except.ok (acc.1, updFn acc.2 ev.station_id (acc.2 ev.station_id ++ [q])) ∧
        ∀ rest : List ChargingEvent,
          (ev :: rest).foldlM (sessionStep series laneZero ecsc) acc
            = rest.foldlM (sessionStep series laneZero ecsc)
                (acc.1, updFn acc.2 ev.station_id (acc.2 ev.station_id ++ [q])) := by
  have hstep : sessionStep series laneZero ecsc acc ev
      = Except.ok (acc.1, updFn acc.2 ev.station_id
          (acc.2 ev.station_id ++
            [if laneZero ("cs_lanes_" ++ e ++ "_" ++ i) ≠ [] then
                (laneZero ("cs_lanes_" ++ e ++ "_" ++ i)).foldl
                  (fun q tc =>
                    if ev.chargingBegin ≤ tc.1 ∧ tc.1 ≤ ev.chargingEnd ∧ q < tc.2 then tc.2
                    else q)
                  0
              else 0])) := by
    simp only [sessionStep, hid, hfind]
  refine ⟨_, hstep, fun rest => ?_⟩
  rw [List.foldlM_cons, hstep]
  rfl

/-- Witness for C8 (amended) at the session of `claim_C8_counterexample`. -/
theorem claim_C8_amended_witness :
    extract_edge_and_index ("cs_e5_0" : String) = Except.ok ("e5", "0") ∧
      find_queue_entry_time ([] : List (Time × String)) (inQueueZone "e5" 1) 10 = none ∧
      ∃ q : ℕ,
        sessionStep (fun _ => []) (fun _ => []) (fun _ => 1)
            (fun _ => [], fun _ => []) ⟨"cs_e5_0", "v1", 10, 20, 5⟩
            = Except.ok ((fun _ => []),
                updFn (fun _ => []) "cs_e5_0" ([] ++ [q])) ∧
          ∀ rest : List ChargingEvent,
            ((⟨"cs_e5_0", "v1", 10, 20, 5⟩ : ChargingEvent) :: rest).foldlM
                (sessionStep (fun _ => []) (fun _ => []) (fun _ => 1))
                (fun _ => [], fun _ => [])
              = rest.foldlM (sessionStep (fun _ => []) (fun _ => []) (fun _ => 1))
                  ((fun _ => []), updFn (fun _ => []) "cs_e5_0" ([] ++ [q])) :=
  ⟨by rfl, by rfl,
    claim_C8_amended (fun _ => []) (fun _ => []) (fun _ => 1)
      (fun _ => [], fun _ => []) ⟨"cs_e5_0", "v1", 10, 20, 5⟩ "e5" "0"
      (by rfl) (by rfl)⟩

/-! ### C3 infrastructure: characterizing the group accumulators -/

/-- Association-list lookup (Python `d[g]` on the ordered dict model). -/
def alookup {α : Type} : List (String × α) → String → Option α
  | [], _ => none
  | (k, v) :: rest, g => if g = k then some v else alookup rest g

theorem alookup_updateGroupAcc (acc : List (String × GroupAcc)) (g g' : String)
    (sd : StationData) :
    alookup (updateGroupAcc acc g sd) g'
      = if g' = g then some (extendGroupAcc ((alookup acc g).getD emptyGroupAcc) sd)
        else alookup acc g' := by
  induction acc with
  | nil => by_cases h : g' = g <;> simp [updateGroupAcc, alookup, h]
  | cons p rest ih =>
    obtain ⟨k, v⟩ := p
    by_cases hk : k = g
    · subst hk
      by_cases h : g' = k <;> simp [updateGroupAcc, alookup, h]
    · have hgk : ¬ g = k := fun hh => hk hh.symm
      by_cases h : g' = k
      · have h2 : ¬ g' = g := by rw [h]; exact hk
        simp [updateGroupAcc, alookup, hk, h, h2, hgk]
      · simp [updateGroupAcc, alookup, hk, h, hgk, ih]

/-- Folding `extendGroupAcc` over a station list concatenates every list
field and sums every counter. -/
theorem foldl_extendGroupAcc (l : List (String × StationData)) (ga : GroupAcc) :
    l.foldl (fun a p => extendGroupAcc a p.2) ga
      = { sessions := ga.sessions + (l.map (fun p => p.2.sessions)).sum,
          search_times_all := ga.search_times_all ++ l.flatMap (fun p => p.2.search_times),
          reroute_in_times_all :=
            ga.reroute_in_times_all ++ l.flatMap (fun p => p.2.reroute_in_times),
          reroute_out_times_all :=
            ga.reroute_out_times_all ++ l.flatMap (fun p => p.2.reroute_out_times),
          reroute_in_count_total :=
            ga.reroute_in_count_total + (l.map (fun p => p.2.reroute_in_count)).sum,
          reroute_out_count_total :=
            ga.reroute_out_count_total + (l.map (fun p => p.2.reroute_out_count)).sum,
          sessions_with_in_total :=
            ga.sessions_with_in_total + (l.map (fun p => p.2.sessions_with_in)).sum,
          sessions_with_out_total :=
            ga.sessions_with_out_total + (l.map (fun p => p.2.sessions_with_out)).sum } := by
  induction l generalizing ga with
  | nil => simp
  | cons p rest ih =>
    rw [List.foldl_cons, ih (extendGroupAcc ga p.2)]
    simp [extendGroupAcc, Nat.add_assoc]

/-- The stations of `per_station` (in iteration order) whose id resolves to
group `g`. -/
def stationsOfGroup (ps : List (String × StationData)) (g : String) :
    List (String × StationData) :=
  ps.filter (fun p => get_group_id p.1 = g)

theorem groupAccumulate_aux (ps : List (String × StationData))
    (acc : List (String × GroupAcc)) (g : String) (hg : g ≠ "") :
    alookup
        (ps.foldl
          (fun acc p =>
            if get_group_id p.1 = "" then acc
            else updateGroupAcc acc (get_group_id p.1) p.2)
          acc) g
      = match alookup acc g with
        | some ga =>
          some ((stationsOfGroup ps g).foldl (fun a p => extendGroupAcc a p.2) ga)
        | none =>
          if stationsOfGroup ps g = [] then none
          else some ((stationsOfGroup ps g).foldl (fun a p => extendGroupAcc a p.2)
            emptyGroupAcc) := by
  induction ps generalizing acc with
  | nil =>
    cases h : alookup acc g <;> simp [stationsOfGroup, h]
  | cons p rest ih =>
    by_cases hp : get_group_id p.1 = g
    · have hgg : ¬ get_group_id p.1 = "" := by rw [hp]; exact hg
      have hfil : stationsOfGroup (p :: rest) g = p :: stationsOfGroup rest g := by
        simp [stationsOfGroup, List.filter_cons, hp]
      simp only [List.foldl_cons, hfil]
      rw [show (if get_group_id p.1 = "" then acc else updateGroupAcc acc (get_group_id p.1) p.2)
          = updateGroupAcc acc g p.2 by rw [if_neg hgg, hp]]
      rw [ih (updateGroupAcc acc g p.2)]
      rw [alookup_updateGroupAcc acc g g p.2, if_pos rfl]
      cases h : alookup acc g <;> simp [h, List.foldl_cons]
    · have hfil : stationsOfGroup (p :: rest) g = stationsOfGroup rest g := by
        simp [stationsOfGroup, List.filter_cons, hp]
      simp only [List.foldl_cons, hfil]
      by_cases hgg : get_group_id p.1 = ""
      · rw [if_pos hgg]
        exact ih acc
      · rw [if_neg hgg]
        rw [ih (updateGroupAcc acc (get_group_id p.1) p.2)]
        rw [alookup_updateGroupAcc acc (get_group_id p.1) g p.2,
          if_neg (fun h => hp h.symm)]

/-- Lookup characterization of `groupAccumulate`: each group's accumulator is
built from exactly its own stations, in `per_station` order. -/
theorem groupAccumulate_lookup (ps : List (String × StationData)) (g : String)
    (hg : g ≠ "") :
    alookup (groupAccumulate ps) g
      = if stationsOfGroup ps g = [] then none
        else some ((stationsOfGroup ps g).foldl (fun a p => extendGroupAcc a p.2)
          emptyGroupAcc) := by
  have := groupAccumulate_aux ps [] g hg
  simpa [groupAccumulate, alookup] using this

/-- Left fold of list append from an initial segment is flat concatenation. -/
theorem foldl_append_flatMap {α β : Type} (l : List α) (f : α → List β) (i : List β) :
    l.foldl (fun a p => a ++ f p) i = i ++ l.flatMap f := by
  induction l generalizing i with
  | nil => simp
  | cons p rest ih => simp [List.foldl_cons, ih]

/-- Folding `chExtendGroupAcc` appends one per-station summary per station
and concatenates the queue lists. -/
theorem foldl_chExtendGroupAcc (l : List (String × ChStationMetrics)) (ga : ChGroupAcc) :
    l.foldl (fun a p => chExtendGroupAcc a p.2) ga
      = { energy := ga.energy ++ l.map (fun p => p.2.total_energy_charged),
          waits_avg := ga.waits_avg ++ l.map (fun p => chStationWaitAvg p.2),
          waits_p95 := ga.waits_p95 ++ l.map (fun p => chStationWaitP95 p.2),
          queues_all := ga.queues_all ++ l.flatMap (fun p => p.2.queues) } := by
  induction l generalizing ga with
  | nil => simp
  | cons p rest ih =>
    rw [List.foldl_cons, ih (chExtendGroupAcc ga p.2)]
    simp [chExtendGroupAcc]

/-- C3 counterexample: in the charging-metrics report, for a group of two
stations with session-wait lists `[1]` and `[2, 3, 4]`, the aggregated group
`avg_session_wait_time` is the mean of the per-station averages, `2`, not
the average `2.5` over the concatenation of the underlying lists — so not
every aggregated average weights every element equally. -/
theorem claim_C3_counterexample :
    chGroupAccumulate [("cs_e5_0", ⟨0, [1], [1, 2]⟩), ("cs_e5_1", ⟨0, [2, 3, 4], [3]⟩)]
        = Except.ok [("e5", ⟨[0, 0], [1, 3], [1, 4], [1, 2, 3]⟩)] ∧
      (chGroupEntryOf ⟨[0, 0], [1, 3], [1, 4], [1, 2, 3]⟩).avg_session_wait_time = 2 ∧
      avgOpt ([1] ++ [2, 3, 4]) = some (5 / 2) ∧ ((2 : ℚ) ≠ 5 / 2) := by
  have hc1 : (⌈(19 : ℚ) / 20⌉ : ℤ) = 1 := by rw [Int.ceil_eq_iff]; norm_num
  have hc2 : (⌈(57 : ℚ) / 20⌉ : ℤ) = 3 := by rw [Int.ceil_eq_iff]; norm_num
  have hw1 : chStationWaitAvg ⟨0, [1], [1, 2]⟩ = 1 := by
    simp [chStationWaitAvg, sumQ]
  have hp1 : chStationWaitP95 ⟨0, [1], [1, 2]⟩ = 1 := by
    have hs : sortedQ [1] = [1] := by decide
    simp only [chStationWaitP95, percentile_nearest_rank, hs]
    norm_num [hc1]
  have hw2 : chStationWaitAvg ⟨0, [2, 3, 4], [3]⟩ = 3 := by
    simp [chStationWaitAvg, sumQ]
    norm_num
  have hp2 : chStationWaitP95 ⟨0, [2, 3, 4], [3]⟩ = 4 := by
    have hs : sortedQ [2, 3, 4] = [2, 3, 4] := by decide
    simp only [chStationWaitP95, percentile_nearest_rank, hs]
    norm_num [hc2]
    decide
  have he1 : extract_edge_and_index "cs_e5_0" = Except.ok ("e5", "0") := rfl
  have he2 : extract_edge_and_index "cs_e5_1" = Except.ok ("e5", "1") := rfl
  refine ⟨?_, ?_, ?_, by norm_num⟩
  · simp [chGroupAccumulate, List.foldlM, he1, he2, chUpdateGroupAcc,
      chExtendGroupAcc, chEmptyGroupAcc, hw1, hp1, hw2, hp2, Bind.bind, Except.bind,
      Pure.pure, Except.pure]
  · simp [chGroupEntryOf, sumQ]
    norm_num
  · simp [avgOpt, sumQ]
    norm_num

/-- C3 amended: in the rerouting report every per-group and totals average
and 95th percentile (search and reroute-in/out durations) is computed over
the concatenation of the underlying per-station lists, exactly as claimed;
in the charging-metrics report the queue-length statistics are likewise
concatenation-based, but the group session-wait average and 95th percentile
are the arithmetic mean of the per-station averages/p95s (so for two
stations with lists of sizes 1 and 3 they differ from the
concatenation-based statistic). -/
theorem claim_C3_amended (ps : List (String × StationData)) (g : String)
    (ga : GroupAcc) (data : RData) (hg : g ≠ "")
    (hlk : alookup (groupAccumulate ps) g = some ga) :
    (ga.search_times_all = (stationsOfGroup ps g).flatMap (fun p => p.2.search_times) ∧
      ga.reroute_in_times_all
          = (stationsOfGroup ps g).flatMap (fun p => p.2.reroute_in_times) ∧
      ga.reroute_out_times_all
          = (stationsOfGroup ps g).flatMap (fun p => p.2.reroute_out_times)) ∧
    ((groupFinalize data g ga).avg_search_time
          = avgOpt ((stationsOfGroup ps g).flatMap (fun p => p.2.search_times)) ∧
      (groupFinalize data g ga).p95_search_time
          = percentile ((stationsOfGroup ps g).flatMap (fun p => p.2.search_times)) 95 ∧
      (groupFinalize data g ga).avg_reroute_in_time
          = avgOpt ((stationsOfGroup ps g).flatMap (fun p => p.2.reroute_in_times)) ∧
      (groupFinalize data g ga).p95_reroute_in_time
          = percentile ((stationsOfGroup ps g).flatMap (fun p => p.2.reroute_in_times)) 95 ∧
      (groupFinalize data g ga).avg_reroute_out_time
          = avgOpt ((stationsOfGroup ps g).flatMap (fun p => p.2.reroute_out_times)) ∧
      (groupFinalize data g ga).p95_reroute_out_time
          = percentile ((stationsOfGroup ps g).flatMap (fun p => p.2.reroute_out_times)) 95) ∧
    ((totalsFinalize ps).avg_search_time = avgOpt (ps.flatMap (fun p => p.2.search_times)) ∧
      (totalsFinalize ps).p95_search_time
          = percentile (ps.flatMap (fun p => p.2.search_times)) 95 ∧
      (totalsFinalize ps).avg_reroute_in_time
          = avgOpt (ps.flatMap (fun p => p.2.reroute_in_times)) ∧
      (totalsFinalize ps).p95_reroute_in_time
          = percentile (ps.flatMap (fun p => p.2.reroute_in_times)) 95 ∧
      (totalsFinalize ps).avg_reroute_out_time
          = avgOpt (ps.flatMap (fun p => p.2.reroute_out_times)) ∧
      (totalsFinalize ps).p95_reroute_out_time
          = percentile (ps.flatMap (fun p => p.2.reroute_out_times)) 95) ∧
    (∀ l : List (String × ChStationMetrics),
      (chGroupEntryOf (l.foldl (fun a p => chExtendGroupAcc a p.2) chEmptyGroupAcc)).avg_queue_length
          = (if l.flatMap (fun p => p.2.queues) = [] then 0
             else sumQ (l.flatMap (fun p => p.2.queues))
                / ((l.flatMap (fun p => p.2.queues)).length : ℚ)) ∧
      (chGroupEntryOf (l.foldl (fun a p => chExtendGroupAcc a p.2) chEmptyGroupAcc)).p95_queue_length
          = (if l.flatMap (fun p => p.2.queues) = [] then 0
             else percentile_nearest_rank (l.flatMap (fun p => p.2.queues)) 95) ∧
      (chGroupEntryOf (l.foldl (fun a p => chExtendGroupAcc a p.2) chEmptyGroupAcc)).avg_session_wait_time
          = sumQ (l.map (fun p => chStationWaitAvg p.2))
              / ((if 0 < l.length then l.length else 1 : ℕ) : ℚ) ∧
      (chGroupEntryOf (l.foldl (fun a p => chExtendGroupAcc a p.2) chEmptyGroupAcc)).p95_session_wait_time
          = sumQ (l.map (fun p => chStationWaitP95 p.2))
              / ((if 0 < l.length then l.length else 1 : ℕ) : ℚ)) := by
  have hga : ga = (stationsOfGroup ps g).foldl (fun a p => extendGroupAcc a p.2)
      emptyGroupAcc := by
    rw [groupAccumulate_lookup ps g hg] at hlk
    by_cases h : stationsOfGroup ps g = []
    · rw [if_pos h] at hlk; exact absurd hlk (by simp)
    · rw [if_neg h] at hlk; exact (Option.some.injEq _ _ ▸ hlk).symm
  have hfields := foldl_extendGroupAcc (stationsOfGroup ps g) emptyGroupAcc
  have h1 : ga.search_times_all
      = (stationsOfGroup ps g).flatMap (fun p => p.2.search_times) := by
    rw [hga, hfields]; simp [emptyGroupAcc]
  have h2 : ga.reroute_in_times_all
      = (stationsOfGroup ps g).flatMap (fun p => p.2.reroute_in_times) := by
    rw [hga, hfields]; simp [emptyGroupAcc]
  have h3 : ga.reroute_out_times_all
      = (stationsOfGroup ps g).flatMap (fun p => p.2.reroute_out_times) := by
    rw [hga, hfields]; simp [emptyGroupAcc]
  refine ⟨⟨h1, h2, h3⟩, ?_, ?_, ?_⟩
  · simp [groupFinalize, h1, h2, h3]
  · simp [totalsFinalize, foldl_append_flatMap]
  · intro l
    rw [foldl_chExtendGroupAcc l chEmptyGroupAcc]
    simp [chGroupEntryOf, chEmptyGroupAcc, List.length_map]

/-- Witness for C3 (amended) at a two-station, one-group `per_station`. -/
theorem claim_C3_amended_witness :
    ("e5" : String) ≠ "" ∧
      alookup
          (groupAccumulate
            [("cs_e5_0", { newStationData with search_times := [4] }),
             ("cs_e5_1", { newStationData with search_times := [1, 2, 3] })])
          "e5"
        = some
            ((stationsOfGroup
                [("cs_e5_0", { newStationData with search_times := [4] }),
                 ("cs_e5_1", { newStationData with search_times := [1, 2, 3] })]
                "e5").foldl (fun a p => extendGroupAcc a p.2) emptyGroupAcc) ∧
      (groupFinalize new_rerouting_data "e5"
          ((stationsOfGroup
              [("cs_e5_0", { newStationData with search_times := [4] }),
               ("cs_e5_1", { newStationData with search_times := [1, 2, 3] })]
              "e5").foldl (fun a p => extendGroupAcc a p.2) emptyGroupAcc)).avg_search_time
        = avgOpt
            ((stationsOfGroup
                [("cs_e5_0", { newStationData with search_times := [4] }),
                 ("cs_e5_1", { newStationData with search_times := [1, 2, 3] })]
                "e5").flatMap (fun p => p.2.search_times)) := by
  have h := claim_C3_amended
    [("cs_e5_0", { newStationData with search_times := [4] }),
     ("cs_e5_1", { newStationData with search_times := [1, 2, 3] })]
    "e5"
    ((stationsOfGroup
        [("cs_e5_0", { newStationData with search_times := [4] }),
         ("cs_e5_1", { newStationData with search_times := [1, 2, 3] })]
        "e5").foldl (fun a p => extendGroupAcc a p.2) emptyGroupAcc)
    new_rerouting_data (by decide) ?hl
  case hl =>
    rw [groupAccumulate_lookup _ _ (by decide)]
    rw [if_neg (by decide)]
  exact ⟨by decide, by
    rw [groupAccumulate_lookup _ _ (by decide)]
    rw [if_neg (by decide)], h.2.1.1⟩

/-- C5: on arrival of a vehicle whose search has a pending reroute: further
ticks never move the pending reroute off its first origin (so intermediate
group hops collapse into one pending reroute); if the arrival group equals
the pending origin group, no reroute record is produced anywhere but the
search-duration record at the destination still is; otherwise exactly one
reroute-out record is appended at the pending origin station and exactly one
reroute-in record at the destination, both with duration `arrival − start of
the first cross-group retarget`, the origin group's reroute-out session
counter increments by exactly one, and every other station and group is
untouched. -/
theorem claim_C5_pending_reroute_arrival (data : RData) (veh_id cs_id : String)
    (t : Time) (p : PendingReroute) (ts : Time)
    (hp : (data.vehState veh_id).pending_reroute = some p)
    (hact : (data.vehState veh_id).search_active = true)
    (hst : (data.vehState veh_id).search_start_t = some ts)
    (hos : p.origin_station ≠ "")
    (hog : p.origin_group ≠ "")
    (hosg : get_group_id p.origin_station = p.origin_group)
    (hcs1 : cs_id ≠ "") (hcs2 : cs_id ≠ "NULL") :
    (∀ s b t', ((tick_update_vehicle data veh_id s b t').vehState veh_id).pending_reroute
        = some p) ∧
    (if get_group_id cs_id = p.origin_group then
      ((handle_arrival data veh_id cs_id t).perStation cs_id).search_times
          = (data.perStation cs_id).search_times ++ [t - ts] ∧
      ((handle_arrival data veh_id cs_id t).perStation cs_id).sessions
          = (data.perStation cs_id).sessions + 1 ∧
      (∀ st, ((handle_arrival data veh_id cs_id t).perStation st).reroute_out_times
            = (data.perStation st).reroute_out_times ∧
          ((handle_arrival data veh_id cs_id t).perStation st).reroute_in_times
            = (data.perStation st).reroute_in_times) ∧
      (handle_arrival data veh_id cs_id t).groupSessionsWithOut = data.groupSessionsWithOut
    else
      ((handle_arrival data veh_id cs_id t).perStation p.origin_station).reroute_out_times
          = (data.perStation p.origin_station).reroute_out_times ++ [t - p.start_t] ∧
      ((handle_arrival data veh_id cs_id t).perStation p.origin_station).reroute_out_count
          = (data.perStation p.origin_station).reroute_out_count + 1 ∧
      ((handle_arrival data veh_id cs_id t).perStation cs_id).reroute_in_times
          = (data.perStation cs_id).reroute_in_times ++ [t - p.start_t] ∧
      ((handle_arrival data veh_id cs_id t).perStation cs_id).reroute_in_count
          = (data.perStation cs_id).reroute_in_count + 1 ∧
      ((handle_arrival data veh_id cs_id t).perStation p.origin_station).reroute_in_times
          = (data.perStation p.origin_station).reroute_in_times ∧
      ((handle_arrival data veh_id cs_id t).perStation cs_id).reroute_out_times
          = (data.perStation cs_id).reroute_out_times ∧
      (handle_arrival data veh_id cs_id t).groupSessionsWithOut p.origin_group
          = data.groupSessionsWithOut p.origin_group + 1 ∧
      (∀ g, g ≠ p.origin_group →
        (handle_arrival data veh_id cs_id t).groupSessionsWithOut g
          = data.groupSessionsWithOut g) ∧
      (∀ st, st ≠ cs_id → st ≠ p.origin_station →
        (handle_arrival data veh_id cs_id t).perStation st = data.perStation st) ∧
      ((handle_arrival data veh_id cs_id t).perStation cs_id).search_times
          = (data.perStation cs_id).search_times ++ [t - ts]) := by
  constructor
  · intro s b t'
    simp only [tick_update_vehicle, updFn_same]
    by_cases h1 : (data.vehState veh_id).search_active = false ∧ s ≠ "" ∧ b = "NULL" <;>
      by_cases h2 : s ≠ "" ∧ b = "NULL" <;>
        simp [h1, h2, hp, hact] <;> split_ifs <;> simp [hp]
  · have hnotor : ¬ (cs_id = "" ∨ cs_id = "NULL") := by
      rintro (h | h) <;> [exact hcs1 h; exact hcs2 h]
    by_cases hcase : get_group_id cs_id = p.origin_group
    · rw [if_pos hcase]
      simp only [handle_arrival, if_neg hnotor, hp, hst, hact, if_pos hcase]
      refine ⟨by simp [updFn], by simp [updFn], fun st => ?_, by trivial⟩
      by_cases hstc : st = cs_id <;> simp [updFn, hstc]
    · rw [if_neg hcase]
      have hne : cs_id ≠ p.origin_station := fun h => hcase (h ▸ hosg)
      simp only [handle_arrival, if_neg hnotor, hp, hst, hact, if_neg hcase,
        if_pos hos, if_pos hog]
      refine ⟨?_, ?_, ?_, ?_, ?_, ?_, ?_, ?_, ?_, ?_⟩
      · simp [updFn, hne, Ne.symm hne]
      · simp [updFn, hne, Ne.symm hne]
      · simp [updFn, hne, Ne.symm hne]
      · simp [updFn, hne, Ne.symm hne]
      · simp [updFn, hne, Ne.symm hne]
      · simp [updFn, hne, Ne.symm hne]
      · simp [updFn]
      · intro g hgne
        simp [updFn, hgne]
      · intro st h1 h2
        simp [updFn, h1, h2]
      · simp [updFn, hne, Ne.symm hne]

/-- Concrete tracker state for the C5 witness: vehicle `v` searching since
t=3, currently aiming at group `e2`, with a pending reroute anchored at
`cs_e1_0` (group `e1`) opened at t=5. -/
def c5WitnessData : RData :=
  { new_rerouting_data with
    vehState := updFn new_rerouting_data.vehState "v"
      { newVehState with
        search_active := true,
        search_start_t := some 3,
        search_target_station := "cs_e2_0",
        search_target_group := "e2",
        pending_reroute := some ⟨"e1", "cs_e1_0", 5⟩,
        current_group := "e2" } }

/-- Witness for C5: arriving at `cs_e2_1` (group `e2` ≠ origin group `e1`)
appends exactly one reroute-out at the origin station and one reroute-in at
the destination. -/
theorem claim_C5_pending_reroute_arrival_witness :
    (c5WitnessData.vehState "v").pending_reroute = some ⟨"e1", "cs_e1_0", 5⟩ ∧
      get_group_id "cs_e2_1" ≠ "e1" ∧
      ((handle_arrival c5WitnessData "v" "cs_e2_1" 12).perStation "cs_e1_0").reroute_out_times
        = (c5WitnessData.perStation "cs_e1_0").reroute_out_times ++ [12 - 5] ∧
      ((handle_arrival c5WitnessData "v" "cs_e2_1" 12).perStation "cs_e2_1").reroute_in_times
        = (c5WitnessData.perStation "cs_e2_1").reroute_in_times ++ [12 - 5] := by
  have h := claim_C5_pending_reroute_arrival c5WitnessData "v" "cs_e2_1" 12
    ⟨"e1", "cs_e1_0", 5⟩ 3 rfl rfl rfl (by decide) (by decide) (by decide)
    (by decide) (by decide)
  have h2 := h.2
  rw [if_neg (by decide : ¬ get_group_id "cs_e2_1" = ("e1" : String))] at h2
  exact ⟨rfl, by decide, h2.1, h2.2.2.1⟩

/-! ### C6 infrastructure: a single-group search run -/

/-- Invariant of a vehicle mid-search within one group `g` since `t₀`, in a
run that has produced no station records and no reroute-out counters. -/
def SearchInv (S : RData) (veh_id g : String) (t₀ : Time) : Prop :=
  S.perStation = (fun _ => newStationData) ∧
  S.groupSessionsWithOut = (fun _ => 0) ∧
  (S.vehState veh_id).search_active = true ∧
  (S.vehState veh_id).search_start_t = some t₀ ∧
  (S.vehState veh_id).search_target_group = g ∧
  (S.vehState veh_id).pending_reroute = none

/-- An all-empty-candidate tick on an idle vehicle is a no-op. -/
theorem tick_idle_noop (S : RData) (veh_id : String) (t : Time)
    (h : S.vehState veh_id = newVehState) :
    tick_update_vehicle S veh_id "" "NULL" t = S := by
  apply RData.ext'
  · rfl
  · funext v
    by_cases hv : v = veh_id
    · subst hv
      simp [tick_update_vehicle, updFn, h, newVehState]
    · simp [tick_update_vehicle, updFn, hv]
  · simp [tick_update_vehicle]
  · rfl

/-- The first non-empty candidate while unassigned starts the search and
establishes the invariant. -/
theorem searchInv_start (S : RData) (veh_id s₀ : String) (t₀ : Time)
    (h : S.vehState veh_id = newVehState)
    (hS1 : S.perStation = fun _ => newStationData)
    (hS2 : S.groupSessionsWithOut = fun _ => 0)
    (hs : s₀ ≠ "") :
    SearchInv (tick_update_vehicle S veh_id s₀ "NULL" t₀) veh_id (get_group_id s₀) t₀ := by
  refine ⟨hS1, hS2, ?_, ?_, ?_, ?_⟩ <;>
    simp [tick_update_vehicle, updFn, h, newVehState, hs]

/-- Any tick whose non-empty candidates stay in group `g` preserves the
invariant (same-group retargets are collapsed without a reroute). -/
theorem searchInv_step (S : RData) (veh_id g s : String) (t₀ t : Time)
    (hInv : SearchInv S veh_id g t₀) (hs : s ≠ "" → get_group_id s = g) :
    SearchInv (tick_update_vehicle S veh_id s "NULL" t) veh_id g t₀ := by
  obtain ⟨h1, h2, h3, h4, h5, h6⟩ := hInv
  by_cases hse : s = ""
  · subst hse
    refine ⟨h1, h2, ?_, ?_, ?_, ?_⟩ <;>
      simp [tick_update_vehicle, updFn, h3, h4, h5, h6]
  · have hg := hs hse
    refine ⟨h1, h2, ?_, ?_, ?_, ?_⟩ <;>
      simp [tick_update_vehicle, updFn, h3, h4, h5, h6, hse, hg]

theorem searchInv_run (S : RData) (veh_id g : String) (t₀ : Time)
    (post : List (String × Time)) (hInv : SearchInv S veh_id g t₀)
    (hpost : ∀ ob ∈ post, ob.1 ≠ "" → get_group_id ob.1 = g) :
    SearchInv (runTicks S veh_id post) veh_id g t₀ := by
  induction post generalizing S with
  | nil => exact hInv
  | cons ob rest ih =>
    have := searchInv_step S veh_id g ob.1 t₀ ob.2 hInv
      (hpost ob (List.mem_cons_self ob rest))
    exact ih _ this (fun o ho => hpost o (List.mem_cons_of_mem ob ho))

theorem runTicks_idle (veh_id : String) (pre : List (String × Time))
    (hpre : ∀ ob ∈ pre, ob.1 = "") :
    runTicks new_rerouting_data veh_id pre = new_rerouting_data := by
  induction pre with
  | nil => rfl
  | cons ob rest ih =>
    have h1 : ob.1 = "" := hpre ob (List.mem_cons_self ob rest)
    have : tick_update_vehicle new_rerouting_data veh_id ob.1 "NULL" ob.2
        = new_rerouting_data := by
      rw [h1]; exact tick_idle_noop _ _ _ rfl
    simpa [runTicks, this] using ih (fun o ho => hpre o (List.mem_cons_of_mem ob ho))

/-- Closing the session from the invariant: a single session record at the
destination, nothing else. -/
theorem searchInv_arrival (S : RData) (veh_id g cs_id : String) (t₀ t_arr : Time)
    (hInv : SearchInv S veh_id g t₀) (hcs1 : cs_id ≠ "") (hcs2 : cs_id ≠ "NULL") :
    (handle_arrival S veh_id cs_id t_arr).perStation cs_id
        = { newStationData with sessions := 1, search_times := [t_arr - t₀] } ∧
      (∀ st, st ≠ cs_id → (handle_arrival S veh_id cs_id t_arr).perStation st
        = newStationData) ∧
      (handle_arrival S veh_id cs_id t_arr).groupSessionsWithOut = fun _ => 0 := by
  obtain ⟨h1, h2, h3, h4, _, h6⟩ := hInv
  have hnotor : ¬ (cs_id = "" ∨ cs_id = "NULL") := by
    rintro (h | h) <;> [exact hcs1 h; exact hcs2 h]
  refine ⟨?_, fun st hst => ?_, ?_⟩ <;>
    simp [handle_arrival, if_neg hnotor, h1, h2, h3, h4, h6, updFn, newStationData, *]

/-- C6: for every tick sequence in which the vehicle's candidate target
never changes group between the first non-empty candidate `s₀` (at `t₀`) and
arrival, the tracker emits exactly one session record for the arrival,
appended at the destination station, with
`search_duration = t_arr − t₀`, and no reroute record or reroute-out counter
anywhere. -/
theorem claim_C6_same_group_search (pre post : List (String × Time))
    (s₀ veh_id cs_id : String) (t₀ t_arr : Time)
    (hpre : ∀ ob ∈ pre, ob.1 = "") (hs₀ : s₀ ≠ "")
    (hpost : ∀ ob ∈ post, ob.1 ≠ "" → get_group_id ob.1 = get_group_id s₀)
    (hcs1 : cs_id ≠ "") (hcs2 : cs_id ≠ "NULL") :
    (handle_arrival (runTicks new_rerouting_data veh_id (pre ++ (s₀, t₀) :: post))
          veh_id cs_id t_arr).perStation cs_id
        = { newStationData with sessions := 1, search_times := [t_arr - t₀] } ∧
      (∀ st, st ≠ cs_id →
        (handle_arrival (runTicks new_rerouting_data veh_id (pre ++ (s₀, t₀) :: post))
          veh_id cs_id t_arr).perStation st = newStationData) ∧
      (∀ st,
        ((handle_arrival (runTicks new_rerouting_data veh_id (pre ++ (s₀, t₀) :: post))
            veh_id cs_id t_arr).perStation st).reroute_in_times = [] ∧
        ((handle_arrival (runTicks new_rerouting_data veh_id (pre ++ (s₀, t₀) :: post))
            veh_id cs_id t_arr).perStation st).reroute_out_times = []) ∧
      (handle_arrival (runTicks new_rerouting_data veh_id (pre ++ (s₀, t₀) :: post))
          veh_id cs_id t_arr).groupSessionsWithOut = fun _ => 0 := by
  have hsplit : runTicks new_rerouting_data veh_id (pre ++ (s₀, t₀) :: post)
      = runTicks
          (tick_update_vehicle (runTicks new_rerouting_data veh_id pre)
            veh_id s₀ "NULL" t₀)
          veh_id post := by
    simp [runTicks, List.foldl_append, List.foldl_cons]
  rw [hsplit, runTicks_idle veh_id pre hpre]
  have hstart := searchInv_start new_rerouting_data veh_id s₀ t₀ rfl rfl rfl hs₀
  have hrun := searchInv_run _ veh_id (get_group_id s₀) t₀ post hstart hpost
  obtain ⟨hA, hB, hC⟩ := searchInv_arrival _ veh_id (get_group_id s₀) cs_id t₀ t_arr
    hrun hcs1 hcs2
  refine ⟨hA, hB, fun st => ?_, hC⟩
  by_cases hst : st = cs_id
  · subst hst
    rw [hA]
    exact ⟨rfl, rfl⟩
  · rw [hB st hst]
    exact ⟨rfl, rfl⟩

/-- Witness for C6: one empty-candidate tick, search start at t=3 on
`cs_e1_0`, a same-group retarget to `cs_e1_1`, arrival at `cs_e1_1` at t=45. -/
theorem claim_C6_same_group_search_witness :
    (∀ ob ∈ [(("" : String), (1 : Time))], ob.1 = "") ∧
      ("cs_e1_0" : String) ≠ "" ∧
      (∀ ob ∈ [(("cs_e1_1" : String), (7 : Time))],
        ob.1 ≠ "" → get_group_id ob.1 = get_group_id "cs_e1_0") ∧
      (handle_arrival
            (runTicks new_rerouting_data "v" ([("", 1)] ++ ("cs_e1_0", 3) :: [("cs_e1_1", 7)]))
            "v" "cs_e1_1" 45).perStation "cs_e1_1"
        = { newStationData with sessions := 1, search_times := [45 - 3] } := by
  have h := claim_C6_same_group_search [("", 1)] [("cs_e1_1", 7)] "cs_e1_0" "v" "cs_e1_1"
    3 45 (by simp) (by decide) (by intro ob hob _; fin_cases hob; decide)
    (by decide) (by decide)
  exact ⟨by simp, by decide, by intro ob hob _; fin_cases hob; decide, h.1⟩

/-! ### Power-controller infrastructure (C2, C4) -/

/-- The fair-share factor computed by the body of the second loop of
`calculateAliquotPowerAdjustments` for one group's station list. -/
def gfactor (s : SimState) (csGroup : List String) : ℚ :=
  match csGroup with
  | [] => 1
  | c0 :: _ =>
    let maxPower : ℚ := ((s.cs c0).groupPower : ℚ)
    let sumDesired : ℚ := csGroup.foldl (fun a c => a + (s.cs c).desiredPower) 0
    if maxPower < sumDesired then maxPower / sumDesired else 1

theorem applyGroupFactor_eq (s : SimState) (csGroup : List String) :
    applyGroupFactor s csGroup
      = match csGroup with
        | [] => s
        | _ :: _ =>
          csGroup.foldl
            (fun s' c =>
              s'.setCS c { s'.cs c with aliquotPowerAdjustment := gfactor s csGroup })
            s := by
  cases csGroup <;> rfl

theorem setAliquot_foldl_cs (xs : List String) (s : SimState) (fq : ℚ) (c' : String) :
    ((xs.foldl
        (fun s' c => s'.setCS c { s'.cs c with aliquotPowerAdjustment := fq }) s).cs c')
      = if c' ∈ xs then { s.cs c' with aliquotPowerAdjustment := fq } else s.cs c' := by
  induction xs generalizing s with
  | nil => simp
  | cons c rest ih =>
    rw [List.foldl_cons, ih]
    by_cases hmem : c' ∈ rest
    · simp only [if_pos hmem, List.mem_cons, hmem, or_true, if_pos]
      by_cases hc : c' = c <;> simp [SimState.setCS, updFn, hc]
    · by_cases hc : c' = c
      · subst hc
        simp [SimState.setCS, updFn, hmem]
      · simp [SimState.setCS, updFn, hmem, hc]

theorem applyGroupFactor_cs (s : SimState) (xs : List String) (c' : String) :
    ((applyGroupFactor s xs).cs c')
      = if c' ∈ xs then { s.cs c' with aliquotPowerAdjustment := gfactor s xs }
        else s.cs c' := by
  rw [applyGroupFactor_eq]
  cases xs with
  | nil => simp
  | cons c rest => rw [setAliquot_foldl_cs]

theorem foldl_setCS_veh (xs : List String) (s : SimState)
    (f : SimState → String → CSParams) :
    ((xs.foldl (fun s' c => s'.setCS c (f s' c)) s).veh) = s.veh := by
  induction xs generalizing s with
  | nil => rfl
  | cons c rest ih => rw [List.foldl_cons]; rw [ih]; rfl

theorem applyGroupFactor_veh (s : SimState) (xs : List String) :
    (applyGroupFactor s xs).veh = s.veh := by
  rw [applyGroupFactor_eq]
  cases xs with
  | nil => rfl
  | cons c rest =>
    exact foldl_setCS_veh (c :: rest) s
      (fun s' c' => { s'.cs c' with aliquotPowerAdjustment := gfactor s (c :: rest) })

theorem entriesFold_veh (entries : List (String × List String)) (s : SimState) :
    (entries.foldl (fun s e => applyGroupFactor s e.2) s).veh = s.veh := by
  induction entries generalizing s with
  | nil => rfl
  | cons e rest ih => rw [List.foldl_cons]; rw [ih]; exact applyGroupFactor_veh s e.2

theorem alookup_addToGroup (d : List (String × List String)) (g g' c : String) :
    alookup (addToGroup d g c) g'
      = if g' = g then some (((alookup d g).getD []) ++ [c]) else alookup d g' := by
  induction d with
  | nil => by_cases h : g' = g <;> simp [addToGroup, alookup, h]
  | cons p rest ih =>
    obtain ⟨k, v⟩ := p
    by_cases hk : k = g
    · subst hk
      by_cases h : g' = k <;> simp [addToGroup, alookup, h]
    · have hgk : ¬ g = k := fun hh => hk hh.symm
      by_cases h : g' = k
      · have h2 : ¬ g' = g := by rw [h]; exact hk
        simp [addToGroup, alookup, hk, h, h2, hgk]
      · simp [addToGroup, alookup, hk, h, hgk, ih]

theorem groupStations_cons (st : SimState) (v : String) (l : List String) (g : String) :
    groupStations st (v :: l) g
      = if (st.cs ((st.veh v).csId)).group = g then
          (st.veh v).csId :: groupStations st l g
        else groupStations st l g := by
  by_cases h : (st.cs ((st.veh v).csId)).group = g <;>
    simp [groupStations, List.filter_cons, h]

theorem buildCsDict_aux (st : SimState) (l : List String)
    (d : List (String × List String)) (g : String) :
    alookup
        (l.foldl
          (fun d v => addToGroup d ((st.cs ((st.veh v).csId)).group) ((st.veh v).csId))
          d) g
      = match alookup d g with
        | some xs => some (xs ++ groupStations st l g)
        | none =>
          if groupStations st l g = [] then none else some (groupStations st l g) := by
  induction l generalizing d with
  | nil => cases h : alookup d g <;> simp [groupStations, h]
  | cons v rest ih =>
    rw [List.foldl_cons, ih, groupStations_cons]
    by_cases hg : (st.cs ((st.veh v).csId)).group = g
    · rw [if_pos hg, alookup_addToGroup d _ g, if_pos hg.symm]
      cases h : alookup d g <;> simp [hg, h]
    · rw [if_neg hg, alookup_addToGroup d _ g, if_neg (fun hh => hg hh.symm)]

theorem buildCsDict_lookup (st : SimState) (l : List String) (g : String) :
    alookup (buildCsDict st l) g
      = if groupStations st l g = [] then none else some (groupStations st l g) := by
  have := buildCsDict_aux st l [] g
  simpa [buildCsDict, alookup] using this

theorem alookup_mem {α : Type} (d : List (String × α)) (g : String) (x : α)
    (h : alookup d g = some x) : (g, x) ∈ d := by
  induction d with
  | nil => simp [alookup] at h
  | cons p rest ih =>
    obtain ⟨k, v⟩ := p
    by_cases hk : g = k
    · subst hk
      simp only [alookup, if_pos trivial, reduceIte, Option.some.injEq] at h
      rw [← h]
      exact List.mem_cons_self _ _
    · simp only [alookup, if_neg hk] at h
      exact List.mem_cons_of_mem _ (ih h)

theorem addToGroup_keys (d : List (String × List String)) (g c : String) :
    (addToGroup d g c).map Prod.fst
      = if g ∈ d.map Prod.fst then d.map Prod.fst else d.map Prod.fst ++ [g] := by
  induction d with
  | nil => simp [addToGroup]
  | cons p rest ih =>
    obtain ⟨k, v⟩ := p
    by_cases hk : k = g
    · subst hk
      simp [addToGroup]
    · have hgk : ¬ g = k := fun h => hk h.symm
      simp only [addToGroup, if_neg hk, List.map_cons, List.mem_cons, ih]
      by_cases hm : g ∈ rest.map Prod.fst
      · simp [hm, hgk]
      · simp [hm, hgk]

theorem addToGroup_keys_nodup (d : List (String × List String)) (g c : String)
    (h : (d.map Prod.fst).Nodup) : ((addToGroup d g c).map Prod.fst).Nodup := by
  rw [addToGroup_keys]
  by_cases hm : g ∈ d.map Prod.fst
  · simpa [hm] using h
  · simp only [if_neg hm]
    simp [List.nodup_append, h, hm]

theorem addToGroup_vals (P : String → String → Prop) (d : List (String × List String))
    (g c : String) (hd : ∀ p ∈ d, ∀ x ∈ p.2, P x p.1) (hc : P c g) :
    ∀ p ∈ addToGroup d g c, ∀ x ∈ p.2, P x p.1 := by
  induction d with
  | nil =>
    intro p hp x hx
    rw [show addToGroup [] g c = [(g, [c])] from rfl] at hp
    rcases List.mem_singleton.mp hp with rfl
    rcases List.mem_singleton.mp hx with rfl
    exact hc
  | cons q rest ih =>
    obtain ⟨k, v⟩ := q
    intro p hp x hx
    rw [show addToGroup ((k, v) :: rest) g c
        = if k = g then (k, v ++ [c]) :: rest else (k, v) :: addToGroup rest g c
      from rfl] at hp
    by_cases hk : k = g
    · rw [if_pos hk] at hp
      rcases List.mem_cons.mp hp with rfl | hp
      · rcases List.mem_append.mp hx with hx2 | hx2
        · exact hd (k, v) (List.mem_cons_self _ _) x hx2
        · rcases List.mem_singleton.mp hx2 with rfl
          rw [hk]
          exact hc
      · exact hd p (List.mem_cons_of_mem _ hp) x hx
    · rw [if_neg hk] at hp
      rcases List.mem_cons.mp hp with rfl | hp
      · exact hd (k, v) (List.mem_cons_self _ _) x hx
      · exact ih (fun p' hp' x' hx' => hd p' (List.mem_cons_of_mem _ hp') x' hx') p hp x hx

theorem buildCsDict_keys_nodup (st : SimState) (l : List String) :
    ((buildCsDict st l).map Prod.fst).Nodup := by
  have aux : ∀ (l : List String) (d : List (String × List String)),
      (d.map Prod.fst).Nodup →
      ((l.foldl
          (fun d v => addToGroup d ((st.cs ((st.veh v).csId)).group) ((st.veh v).csId))
          d).map Prod.fst).Nodup := by
    intro l
    induction l with
    | nil => intro d hd; exact hd
    | cons v rest ih =>
      intro d hd
      rw [List.foldl_cons]
      exact ih _ (addToGroup_keys_nodup d _ _ hd)
  exact aux l [] (by simp)

theorem buildCsDict_vals (st : SimState) (l : List String) :
    ∀ p ∈ buildCsDict st l, ∀ x ∈ p.2, (st.cs x).group = p.1 := by
  have aux : ∀ (l : List String) (d : List (String × List String)),
      (∀ p ∈ d, ∀ x ∈ p.2, (st.cs x).group = p.1) →
      ∀ p ∈ (l.foldl
          (fun d v => addToGroup d ((st.cs ((st.veh v).csId)).group) ((st.veh v).csId))
          d), ∀ x ∈ p.2, (st.cs x).group = p.1 := by
    intro l
    induction l with
    | nil => intro d hd; exact hd
    | cons v rest ih =>
      intro d hd
      rw [List.foldl_cons]
      exact ih _ (addToGroup_vals (fun x g => (st.cs x).group = g) d _ _ hd rfl)
  exact aux l [] (by simp)

/-- Phase 1 only rewrites `aliquotPowerAdjustment`: relation between the
pre-phase state and any state reached during the factor-writing fold. -/
def aliquotOnly (st s : SimState) : Prop :=
  s.veh = st.veh ∧
    ∀ c, ∃ q, s.cs c = { st.cs c with aliquotPowerAdjustment := q }

theorem aliquotOnly_refl (st : SimState) : aliquotOnly st st :=
  ⟨rfl, fun c => ⟨(st.cs c).aliquotPowerAdjustment, rfl⟩⟩

theorem sumDesired_congr (st s : SimState)
    (h : ∀ c, ∃ q, s.cs c = { st.cs c with aliquotPowerAdjustment := q })
    (xs : List String) (a : ℚ) :
    xs.foldl (fun a c => a + (s.cs c).desiredPower) a
      = xs.foldl (fun a c => a + (st.cs c).desiredPower) a := by
  induction xs generalizing a with
  | nil => rfl
  | cons c rest ih =>
    obtain ⟨q, hq⟩ := h c
    simp only [List.foldl_cons, hq]
    exact ih _

theorem gfactor_congr (st s : SimState) (xs : List String) (h : aliquotOnly st s) :
    gfactor s xs = gfactor st xs := by
  cases xs with
  | nil => rfl
  | cons c0 rest =>
    obtain ⟨q, hq⟩ := h.2 c0
    simp only [gfactor, hq, sumDesired_congr st s h.2]

theorem applyGroupFactor_aliquotOnly (st s : SimState) (xs : List String)
    (h : aliquotOnly st s) : aliquotOnly st (applyGroupFactor s xs) := by
  refine ⟨by rw [applyGroupFactor_veh]; exact h.1, fun c => ?_⟩
  rw [applyGroupFactor_cs]
  by_cases hc : c ∈ xs
  · obtain ⟨q, hq⟩ := h.2 c
    exact ⟨gfactor s xs, by rw [if_pos hc, hq]⟩
  · rw [if_neg hc]
    exact h.2 c

theorem entriesFold_aliquotOnly (st : SimState) (entries : List (String × List String))
    (s : SimState) (h : aliquotOnly st s) :
    aliquotOnly st (entries.foldl (fun s e => applyGroupFactor s e.2) s) := by
  induction entries generalizing s with
  | nil => exact h
  | cons e rest ih =>
    rw [List.foldl_cons]
    exact ih _ (applyGroupFactor_aliquotOnly st s e.2 h)

theorem entriesFold_preserve (entries : List (String × List String)) (s : SimState)
    (c : String) (h : ∀ p ∈ entries, c ∉ p.2) :
    ((entries.foldl (fun s e => applyGroupFactor s e.2) s).cs c) = s.cs c := by
  induction entries generalizing s with
  | nil => rfl
  | cons e rest ih =>
    rw [List.foldl_cons]
    rw [ih _ (fun p hp => h p (List.mem_cons_of_mem _ hp))]
    rw [applyGroupFactor_cs, if_neg (h e (List.mem_cons_self _ _))]

theorem entriesFold_at (st : SimState) (entries : List (String × List String))
    (s : SimState) (hs : aliquotOnly st s)
    (hvals : ∀ p ∈ entries, ∀ x ∈ p.2, (st.cs x).group = p.1)
    (hkeys : (entries.map Prod.fst).Nodup)
    (c : String) (xs : List String)
    (hmem : ((st.cs c).group, xs) ∈ entries) (hcx : c ∈ xs) :
    ((entries.foldl (fun s e => applyGroupFactor s e.2) s).cs c)
      = { st.cs c with aliquotPowerAdjustment := gfactor st xs } := by
  induction entries generalizing s with
  | nil => exact absurd hmem (List.not_mem_nil _)
  | cons e rest ih =>
    rw [List.map_cons, List.nodup_cons] at hkeys
    rcases List.mem_cons.mp hmem with he | hmemr
    · have hnotin : ∀ p ∈ rest, c ∉ p.2 := by
        intro p hp hcp
        have h1 : (st.cs c).group = p.1 :=
          hvals p (List.mem_cons_of_mem _ hp) c hcp
        have h2 : p.1 ∈ rest.map Prod.fst := List.mem_map.mpr ⟨p, hp, rfl⟩
        rw [← h1] at h2
        rw [← he] at hkeys
        exact hkeys.1 h2
      rw [List.foldl_cons]
      rw [entriesFold_preserve rest _ c hnotin]
      rw [applyGroupFactor_cs]
      rw [show e.2 = xs by rw [← he]]
      rw [if_pos hcx]
      obtain ⟨q, hq⟩ := hs.2 c
      rw [hq, gfactor_congr st s xs hs]
    · have hcne : c ∉ e.2 := by
        intro hcp
        have h1 : (st.cs c).group = e.1 := hvals e (List.mem_cons_self _ _) c hcp
        have h2 : (st.cs c).group ∈ rest.map Prod.fst :=
          List.mem_map.mpr ⟨((st.cs c).group, xs), hmemr, rfl⟩
        rw [h1] at h2
        exact hkeys.1 h2
      rw [List.foldl_cons]
      exact ih _ (applyGroupFactor_aliquotOnly st s e.2 hs)
        (fun p hp => hvals p (List.mem_cons_of_mem _ hp)) hkeys.2 hmemr

/-- Phase-1 characterization: after `calculateAliquotPowerAdjustments`, the
station of every occupant carries the fair-share factor of its group
(computed from the pre-phase stored demand), all other fields untouched. -/
theorem calc_cs_at (st : SimState) (vehList : List String) (v : String)
    (hv : v ∈ vehList) :
    ((calculateAliquotPowerAdjustments st vehList).cs ((st.veh v).csId))
      = { st.cs ((st.veh v).csId) with
          aliquotPowerAdjustment :=
            gfactor st
              (groupStations st vehList ((st.cs ((st.veh v).csId)).group)) } := by
  have hcx : (st.veh v).csId
      ∈ groupStations st vehList ((st.cs ((st.veh v).csId)).group) := by
    refine List.mem_filter.mpr ⟨List.mem_map.mpr ⟨v, hv, rfl⟩, by simp⟩
  have hlk := buildCsDict_lookup st vehList ((st.cs ((st.veh v).csId)).group)
  rw [if_neg (fun h0 => by rw [h0] at hcx; exact absurd hcx (List.not_mem_nil _))] at hlk
  have hmem := alookup_mem _ _ _ hlk
  exact entriesFold_at st (buildCsDict st vehList) st (aliquotOnly_refl st)
    (buildCsDict_vals st vehList) (buildCsDict_keys_nodup st vehList)
    ((st.veh v).csId) _ hmem hcx

theorem calc_aliquotOnly (st : SimState) (vehList : List String) :
    aliquotOnly st (calculateAliquotPowerAdjustments st vehList) :=
  entriesFold_aliquotOnly st (buildCsDict st vehList) st (aliquotOnly_refl st)

/-- The loop body of `setChargingStationPowers` for one occupant. -/
def setPowersStep (s : SimState) (v : String) : SimState :=
  let csId := (s.veh v).csId
  let power := basePower s v
  let s1 := s.setCS csId { s.cs csId with power := power }
  let s2 := s1.setCS csId { s1.cs csId with desiredPower := power }
  let factor := (s2.cs csId).aliquotPowerAdjustment
  let actualPower := power * factor
  s2.setCS csId { s2.cs csId with power := actualPower }

theorem setChargingStationPowers_eq_foldl (s : SimState) (vehList : List String) :
    setChargingStationPowers s vehList = vehList.foldl setPowersStep s := rfl

theorem setPowersStep_veh (s : SimState) (v : String) :
    (setPowersStep s v).veh = s.veh := rfl

theorem setPowersStep_cs (s : SimState) (v c' : String) :
    ((setPowersStep s v).cs c')
      = if c' = (s.veh v).csId then
          { s.cs ((s.veh v).csId) with
            power := basePower s v * (s.cs ((s.veh v).csId)).aliquotPowerAdjustment,
            desiredPower := basePower s v }
        else s.cs c' := by
  by_cases hc : c' = (s.veh v).csId <;>
    simp [setPowersStep, SimState.setCS, updFn, hc]

/-- Phase 2 only rewrites `power` and `desiredPower`. -/
def powerDesiredOnly (s₁ s : SimState) : Prop :=
  s.veh = s₁.veh ∧
    ∀ c, ∃ pw dp, s.cs c = { s₁.cs c with desiredPower := dp, power := pw }

theorem powerDesiredOnly_refl (s₁ : SimState) : powerDesiredOnly s₁ s₁ :=
  ⟨rfl, fun c => ⟨(s₁.cs c).power, (s₁.cs c).desiredPower, rfl⟩⟩

theorem basePower_congr (s₁ s : SimState) (v : String) (h : powerDesiredOnly s₁ s) :
    basePower s v = basePower s₁ v := by
  obtain ⟨pw, dp, hq⟩ := h.2 ((s₁.veh v).csId)
  simp only [basePower, h.1, hq]

theorem setPowersStep_powerDesiredOnly (s₁ s : SimState) (v : String)
    (h : powerDesiredOnly s₁ s) : powerDesiredOnly s₁ (setPowersStep s v) := by
  refine ⟨by rw [setPowersStep_veh]; exact h.1, fun c => ?_⟩
  rw [setPowersStep_cs]
  by_cases hc : c = (s.veh v).csId
  · obtain ⟨pw, dp, hq⟩ := h.2 c
    rw [if_pos hc, ← hc, hq]
    exact ⟨_, _, rfl⟩
  · rw [if_neg hc]
    exact h.2 c

theorem setPowers_foldl_powerDesiredOnly (s₁ s : SimState) (vehList : List String)
    (h : powerDesiredOnly s₁ s) :
    powerDesiredOnly s₁ (vehList.foldl setPowersStep s) := by
  induction vehList generalizing s with
  | nil => exact h
  | cons v rest ih =>
    rw [List.foldl_cons]
    exact ih _ (setPowersStep_powerDesiredOnly s₁ s v h)

theorem setPowers_foldl_preserve (s : SimState) (vehList : List String) (c : String)
    (h : ∀ v ∈ vehList, (s.veh v).csId ≠ c) :
    ((vehList.foldl setPowersStep s).cs c) = s.cs c := by
  induction vehList generalizing s with
  | nil => rfl
  | cons v rest ih =>
    rw [List.foldl_cons]
    rw [ih (setPowersStep s v) ?hrest]
    · rw [setPowersStep_cs,
        if_neg (fun hc => h v (List.mem_cons_self _ _) hc.symm)]
    case hrest =>
      intro w hw
      rw [show (setPowersStep s v).veh = s.veh from rfl]
      exact h w (List.mem_cons_of_mem _ hw)

/-- Phase-2 characterization: with pairwise-distinct occupant stations, the
station of occupant `v` ends with `power = base × factor` and
`desiredPower = base` (base and factor as of the start of phase 2). -/
theorem setPowers_cs_at (s₁ : SimState) (vehList : List String)
    (hnd : (vehList.map fun w => (s₁.veh w).csId).Nodup)
    (v : String) (hv : v ∈ vehList) :
    ((setChargingStationPowers s₁ vehList).cs ((s₁.veh v).csId))
      = { s₁.cs ((s₁.veh v).csId) with
          desiredPower := basePower s₁ v,
          power :=
            basePower s₁ v
              * (s₁.cs ((s₁.veh v).csId)).aliquotPowerAdjustment } := by
  rw [setChargingStationPowers_eq_foldl]
  have aux : ∀ (l : List String) (s : SimState), powerDesiredOnly s₁ s →
      (l.map fun w => (s₁.veh w).csId).Nodup → v ∈ l →
      ((l.foldl setPowersStep s).cs ((s₁.veh v).csId))
        = { s.cs ((s₁.veh v).csId) with
            desiredPower := basePower s₁ v,
            power :=
              basePower s₁ v
                * (s.cs ((s₁.veh v).csId)).aliquotPowerAdjustment } := by
    intro l
    induction l with
    | nil => intro s _ _ hvl; exact absurd hvl (List.not_mem_nil v)
    | cons v₀ rest ih =>
      intro s hs hnd2 hvl
      rw [List.map_cons, List.nodup_cons] at hnd2
      rw [List.foldl_cons]
      rcases List.mem_cons.mp hvl with rfl | hvr
      · have hpre : ∀ w ∈ rest, ((setPowersStep s v).veh w).csId ≠ (s₁.veh v).csId := by
          intro w hw
          rw [show (setPowersStep s v).veh = s.veh from rfl, hs.1]
          intro hcc
          exact hnd2.1 (hcc ▸ List.mem_map.mpr ⟨w, hw, rfl⟩)
        rw [setPowers_foldl_preserve _ _ _ hpre]
        rw [setPowersStep_cs]
        rw [show (s.veh v).csId = (s₁.veh v).csId by rw [hs.1]]
        rw [if_pos rfl]
        rw [basePower_congr s₁ s v hs]
      · have hst : (s.veh v₀).csId ≠ (s₁.veh v).csId := by
          rw [hs.1]
          intro hcc
          exact hnd2.1 (hcc ▸ List.mem_map.mpr ⟨v, hvr, rfl⟩)
        have hcs0 : ((setPowersStep s v₀).cs ((s₁.veh v).csId)) = s.cs ((s₁.veh v).csId) := by
          rw [setPowersStep_cs, if_neg (fun hc => hst hc.symm)]
        rw [ih (setPowersStep s v₀) (setPowersStep_powerDesiredOnly s₁ s v₀ hs) hnd2.2 hvr,
          hcs0]
  have h := aux vehList s₁ (powerDesiredOnly_refl s₁) hnd hv
  exact h

theorem basePower_aliquotOnly (st s : SimState) (v : String) (h : aliquotOnly st s) :
    basePower s v = basePower st v := by
  obtain ⟨q, hq⟩ := h.2 ((st.veh v).csId)
  simp only [basePower, h.1, hq]

/-- The two controller phases combined: with pairwise-distinct occupant
stations, occupant `v`'s station ends the tick with the group fair-share
factor, the unscaled base demand, and the delivered power `base × factor`,
everything computed from the pre-tick state. -/
theorem phases_cs_at (st₀ : SimState) (vehList : List String) (v : String)
    (hv : v ∈ vehList)
    (hnd : (vehList.map fun w => (st₀.veh w).csId).Nodup) :
    ((setChargingStationPowers (calculateAliquotPowerAdjustments st₀ vehList)
        vehList).cs ((st₀.veh v).csId))
      = { st₀.cs ((st₀.veh v).csId) with
          aliquotPowerAdjustment :=
            gfactor st₀
              (groupStations st₀ vehList ((st₀.cs ((st₀.veh v).csId)).group)),
          desiredPower := basePower st₀ v,
          power :=
            basePower st₀ v
              * gfactor st₀
                  (groupStations st₀ vehList ((st₀.cs ((st₀.veh v).csId)).group)) } := by
  have hao := calc_aliquotOnly st₀ vehList
  have hveh : (calculateAliquotPowerAdjustments st₀ vehList).veh = st₀.veh := hao.1
  have hnd1 : (vehList.map fun w =>
      ((calculateAliquotPowerAdjustments st₀ vehList).veh w).csId).Nodup := by
    simpa [hveh] using hnd
  have hvst : ((calculateAliquotPowerAdjustments st₀ vehList).veh v).csId
      = (st₀.veh v).csId := by rw [hveh]
  have h2 := setPowers_cs_at (calculateAliquotPowerAdjustments st₀ vehList) vehList
    hnd1 v hv
  rw [hvst] at h2
  rw [h2, calc_cs_at st₀ vehList v hv,
    basePower_aliquotOnly st₀ (calculateAliquotPowerAdjustments st₀ vehList) v hao]

/-- C4: each tick, each occupant's station is written `power = base × factor`
with `base` the minimum of the three ceilings (state-of-charge taper
`1.1 × maxE × (110 − 100 × curE/maxE) / 33`, rated output, vehicle intake)
and `factor` the group fair-share factor: `cap / sum` when the summed stored
base demand exceeds the group cap and `1` otherwise, in particular `1` with
no division when the summed demand is zero (and the cap nonnegative); the
unscaled base is also written back to `desiredPower` so the next tick's
phase 1 reads fresh base demand. -/
theorem claim_C4_power_allocation (st₀ : SimState) (vehList : List String)
    (v : String) (hv : v ∈ vehList)
    (hnd : (vehList.map fun w => (st₀.veh w).csId).Nodup) :
    ((setChargingStationPowers (calculateAliquotPowerAdjustments st₀ vehList)
        vehList).cs ((st₀.veh v).csId)).desiredPower
      = min
          (min
            (11 / 10 * (st₀.veh v).maximumBatteryCapacity *
              (110 - 100 * (st₀.veh v).actualBatteryCapacity
                / (st₀.veh v).maximumBatteryCapacity) / 33)
            ((st₀.cs ((st₀.veh v).csId)).allowedPowerOutput))
          ((st₀.veh v).allowedPowerIntake) ∧
    ((setChargingStationPowers (calculateAliquotPowerAdjustments st₀ vehList)
        vehList).cs ((st₀.veh v).csId)).power
      = basePower st₀ v
          * gfactor st₀
              (groupStations st₀ vehList ((st₀.cs ((st₀.veh v).csId)).group)) ∧
    (∀ c0 restg,
      groupStations st₀ vehList ((st₀.cs ((st₀.veh v).csId)).group) = c0 :: restg →
      ((((st₀.cs c0).groupPower : ℚ)
          < (c0 :: restg).foldl (fun a c => a + (st₀.cs c).desiredPower) 0 →
        gfactor st₀ (groupStations st₀ vehList ((st₀.cs ((st₀.veh v).csId)).group))
          = ((st₀.cs c0).groupPower : ℚ)
              / (c0 :: restg).foldl (fun a c => a + (st₀.cs c).desiredPower) 0) ∧
      (¬ (((st₀.cs c0).groupPower : ℚ)
          < (c0 :: restg).foldl (fun a c => a + (st₀.cs c).desiredPower) 0) →
        gfactor st₀ (groupStations st₀ vehList ((st₀.cs ((st₀.veh v).csId)).group))
          = 1) ∧
      ((c0 :: restg).foldl (fun a c => a + (st₀.cs c).desiredPower) 0 = 0 →
        0 ≤ ((st₀.cs c0).groupPower : ℚ) →
        gfactor st₀ (groupStations st₀ vehList ((st₀.cs ((st₀.veh v).csId)).group))
          = 1))) := by
  have hmain := phases_cs_at st₀ vehList v hv hnd
  refine ⟨?_, ?_, ?_⟩
  · rw [hmain]
    simp [basePower]
  · rw [hmain]
  · intro c0 restg hxs
    rw [hxs]
    refine ⟨fun hlt => ?_, fun hnlt => ?_, fun hzero hcap => ?_⟩
    · simp only [gfactor, if_pos hlt]
    · simp only [gfactor, if_neg hnlt]
    · have hnlt : ¬ (((st₀.cs c0).groupPower : ℚ)
          < (c0 :: restg).foldl (fun a c => a + (st₀.cs c).desiredPower) 0) := by
        rw [hzero]; exact not_lt.mpr hcap
      simp only [gfactor, if_neg hnlt]

/-- Concrete state for the C4 and C2 witnesses: one occupant `v` at station
`cs_e_0` of group `e` (cap 10), battery 0/30, rated output 20, intake 25,
stored demand 5. -/
def powerWitnessState : SimState :=
  { cs := updFn
      (fun _ => { group := "", groupPower := 0, desiredPower := 0,
                  aliquotPowerAdjustment := 1, power := 0, allowedPowerOutput := 0 })
      "cs_e_0"
      { group := "e", groupPower := 10, desiredPower := 5,
        aliquotPowerAdjustment := 1, power := 0, allowedPowerOutput := 20 },
    veh := fun _ =>
      { csId := "cs_e_0", actualBatteryCapacity := 0,
        maximumBatteryCapacity := 30, allowedPowerIntake := 25 } }

/-- Witness for C4 at `powerWitnessState` with the single occupant `v`. -/
theorem claim_C4_power_allocation_witness :
    ("v" ∈ ["v"]) ∧
      ((["v"].map fun w => ((powerWitnessState.veh w).csId)).Nodup) ∧
      ((setChargingStationPowers
          (calculateAliquotPowerAdjustments powerWitnessState ["v"]) ["v"]).cs
            ((powerWitnessState.veh "v").csId)).desiredPower
        = min
            (min
              (11 / 10 * (powerWitnessState.veh "v").maximumBatteryCapacity *
                (110 - 100 * (powerWitnessState.veh "v").actualBatteryCapacity
                  / (powerWitnessState.veh "v").maximumBatteryCapacity) / 33)
              ((powerWitnessState.cs
                  ((powerWitnessState.veh "v").csId)).allowedPowerOutput))
            ((powerWitnessState.veh "v").allowedPowerIntake) :=
  ⟨by decide, by decide,
    (claim_C4_power_allocation powerWitnessState ["v"] "v" (by decide) (by decide)).1⟩

/-- Concrete state for the C2 counterexample: one occupant `v` at `cs_e_0`
(group `e`, cap 10) whose station's stored `desiredPower` is `0` — exactly
the state produced for a fresh arrival, which `simulation.py` initializes
with `setParameter(csId, "desiredPower", 0)` before the phases run. -/
def c2CounterState : SimState :=
  { cs := updFn
      (fun _ => { group := "", groupPower := 0, desiredPower := 0,
                  aliquotPowerAdjustment := 1, power := 0, allowedPowerOutput := 0 })
      "cs_e_0"
      { group := "e", groupPower := 10, desiredPower := 0,
        aliquotPowerAdjustment := 1, power := 0, allowedPowerOutput := 20 },
    veh := fun _ =>
      { csId := "cs_e_0", actualBatteryCapacity := 0,
        maximumBatteryCapacity := 30, allowedPowerIntake := 25 } }

/-- C2 counterexample: on the tick after a fresh arrival, phase 1 reads the
zero stored demand (factor 1) while phase 2 delivers the fresh base 20, so
the summed delivered power of group `e`'s occupants is 20, exceeding the
group cap 10 — the per-tick cap invariant is violated. -/
theorem claim_C2_counterexample :
    ((groupOccupants c2CounterState ["v"] "e").map (fun w =>
        ((setChargingStationPowers
            (calculateAliquotPowerAdjustments c2CounterState ["v"]) ["v"]).cs
          ((c2CounterState.veh w).csId)).power)).sum = 20 ∧
      ((c2CounterState.cs "cs_e_0").groupPower : ℚ) = 10 ∧
      ¬ ((20 : ℚ) ≤ 10) := by
  have h := phases_cs_at c2CounterState ["v"] "v" (by decide) (by decide)
  have hocc : groupOccupants c2CounterState ["v"] "e" = ["v"] := by decide
  have hgs : groupStations c2CounterState ["v"]
      ((c2CounterState.cs ((c2CounterState.veh "v").csId)).group) = ["cs_e_0"] := by
    decide
  have hbase : basePower c2CounterState "v" = 20 := by
    simp [basePower, c2CounterState, updFn]
    norm_num
  have hgf : gfactor c2CounterState ["cs_e_0"] = 1 := by
    simp only [gfactor, List.foldl_cons, List.foldl_nil]
    norm_num [c2CounterState, updFn]
  refine ⟨?_, by norm_num [c2CounterState, updFn], by norm_num⟩
  rw [hocc]
  simp only [List.map_cons, List.map_nil, List.sum_cons, List.sum_nil]
  rw [h, hgs]
  simp only [hbase, hgf]
  norm_num

/-- C2 amended: the per-tick group cap invariant holds under steady or
falling demand — whenever the group's summed fresh base demand does not
exceed the summed stored demand read in phase 1, or is itself at most the
cap — given a nonnegative cap and nonnegative base powers. (The
counterexample shows it fails when fresh demand newly exceeds both, e.g. on
the tick after an arrival.) -/
theorem claim_C2_group_cap (st₀ : SimState) (vehList : List String) (g : String)
    (c0 : String) (restg : List String)
    (hnd : (vehList.map fun w => (st₀.veh w).csId).Nodup)
    (hxs : groupStations st₀ vehList g = c0 :: restg)
    (hcap : 0 ≤ ((st₀.cs c0).groupPower : ℚ))
    (hbase : ∀ v ∈ groupOccupants st₀ vehList g, 0 ≤ basePower st₀ v)
    (hmain :
      ((groupOccupants st₀ vehList g).map (fun v => basePower st₀ v)).sum
          ≤ (c0 :: restg).foldl (fun a c => a + (st₀.cs c).desiredPower) 0 ∨
        ((groupOccupants st₀ vehList g).map (fun v => basePower st₀ v)).sum
          ≤ ((st₀.cs c0).groupPower : ℚ)) :
    ((groupOccupants st₀ vehList g).map (fun v =>
        ((setChargingStationPowers (calculateAliquotPowerAdjustments st₀ vehList)
            vehList).cs ((st₀.veh v).csId)).power)).sum
      ≤ ((st₀.cs c0).groupPower : ℚ) := by
  have hpow : ∀ v ∈ groupOccupants st₀ vehList g,
      ((setChargingStationPowers (calculateAliquotPowerAdjustments st₀ vehList)
          vehList).cs ((st₀.veh v).csId)).power
        = basePower st₀ v * gfactor st₀ (c0 :: restg) := by
    intro v hvocc
    have hvl : v ∈ vehList := List.mem_of_mem_filter hvocc
    have hgrp : (st₀.cs ((st₀.veh v).csId)).group = g := by
      have := List.of_mem_filter hvocc
      simpa using this
    rw [phases_cs_at st₀ vehList v hvl hnd]
    rw [show groupStations st₀ vehList ((st₀.cs ((st₀.veh v).csId)).group)
        = c0 :: restg by rw [hgrp, hxs]]
  rw [List.map_congr_left hpow, List.sum_map_mul_right]
  have hsum0 : 0 ≤ ((groupOccupants st₀ vehList g).map (fun v => basePower st₀ v)).sum := by
    refine List.sum_nonneg ?_
    intro x hx
    obtain ⟨v, hv, hfx⟩ := List.mem_map.mp hx
    rw [← hfx]
    exact hbase v hv
  by_cases hlt : ((st₀.cs c0).groupPower : ℚ)
      < (c0 :: restg).foldl (fun a c => a + (st₀.cs c).desiredPower) 0
  · have hS0 : (0 : ℚ) < (c0 :: restg).foldl (fun a c => a + (st₀.cs c).desiredPower) 0 :=
      lt_of_le_of_lt hcap hlt
    have hgf : gfactor st₀ (c0 :: restg)
        = ((st₀.cs c0).groupPower : ℚ)
            / (c0 :: restg).foldl (fun a c => a + (st₀.cs c).desiredPower) 0 := by
      simp only [gfactor, if_pos hlt]
    rw [hgf]
    rcases hmain with hm | hm
    · calc ((groupOccupants st₀ vehList g).map (fun v => basePower st₀ v)).sum
            * (((st₀.cs c0).groupPower : ℚ)
                / (c0 :: restg).foldl (fun a c => a + (st₀.cs c).desiredPower) 0)
          ≤ (c0 :: restg).foldl (fun a c => a + (st₀.cs c).desiredPower) 0
            * (((st₀.cs c0).groupPower : ℚ)
                / (c0 :: restg).foldl (fun a c => a + (st₀.cs c).desiredPower) 0) := by
            exact mul_le_mul_of_nonneg_right hm (div_nonneg hcap (le_of_lt hS0))
        _ = ((st₀.cs c0).groupPower : ℚ) := by
            rw [mul_comm]
            exact div_mul_cancel₀ _ (ne_of_gt hS0)
    · have hfle : (((st₀.cs c0).groupPower : ℚ)
          / (c0 :: restg).foldl (fun a c => a + (st₀.cs c).desiredPower) 0) ≤ 1 :=
        (div_le_one hS0).mpr (le_of_lt hlt)
      calc ((groupOccupants st₀ vehList g).map (fun v => basePower st₀ v)).sum
            * (((st₀.cs c0).groupPower : ℚ)
                / (c0 :: restg).foldl (fun a c => a + (st₀.cs c).desiredPower) 0)
          ≤ ((groupOccupants st₀ vehList g).map (fun v => basePower st₀ v)).sum :=
            mul_le_of_le_one_right hsum0 hfle
        _ ≤ ((st₀.cs c0).groupPower : ℚ) := hm
  · have hgf : gfactor st₀ (c0 :: restg) = 1 := by
      simp only [gfactor, if_neg hlt]
    rw [hgf, mul_one]
    rcases hmain with hm | hm
    · exact le_trans hm (not_lt.mp hlt)
    · exact hm

/-- Concrete state for the C2 (amended) witness: one occupant at `cs_e_0`
(group `e`, cap 10) whose intake limit caps the fresh base at 8 ≤ cap. -/
def c2WitnessState : SimState :=
  { cs := updFn
      (fun _ => { group := "", groupPower := 0, desiredPower := 0,
                  aliquotPowerAdjustment := 1, power := 0, allowedPowerOutput := 0 })
      "cs_e_0"
      { group := "e", groupPower := 10, desiredPower := 5,
        aliquotPowerAdjustment := 1, power := 0, allowedPowerOutput := 20 },
    veh := fun _ =>
      { csId := "cs_e_0", actualBatteryCapacity := 0,
        maximumBatteryCapacity := 30, allowedPowerIntake := 8 } }

theorem claim_C2_group_cap_witness :
    ((["v"].map fun w => ((c2WitnessState.veh w).csId)).Nodup) ∧
      groupStations c2WitnessState ["v"] "e" = ["cs_e_0"] ∧
      (0 : ℚ) ≤ ((c2WitnessState.cs "cs_e_0").groupPower : ℚ) ∧
      (∀ v ∈ groupOccupants c2WitnessState ["v"] "e", 0 ≤ basePower c2WitnessState v) ∧
      ((groupOccupants c2WitnessState ["v"] "e").map (fun v =>
          ((setChargingStationPowers
              (calculateAliquotPowerAdjustments c2WitnessState ["v"]) ["v"]).cs
            ((c2WitnessState.veh v).csId)).power)).sum
        ≤ ((c2WitnessState.cs "cs_e_0").groupPower : ℚ) := by
  have hbase : ∀ v ∈ groupOccupants c2WitnessState ["v"] "e",
      0 ≤ basePower c2WitnessState v := by
    intro v hv
    have hv1 : v = "v" := by
      have := List.mem_of_mem_filter hv
      simpa using this
    subst hv1
    simp [basePower, c2WitnessState, updFn]
    norm_num
  have hocc : groupOccupants c2WitnessState ["v"] "e" = ["v"] := by decide
  have hb8 : basePower c2WitnessState "v" = 8 := by
    simp [basePower, c2WitnessState, updFn]
    norm_num
  have hmain :
      ((groupOccupants c2WitnessState ["v"] "e").map
          (fun v => basePower c2WitnessState v)).sum
        ≤ ["cs_e_0"].foldl (fun a c => a + (c2WitnessState.cs c).desiredPower) 0 ∨
      ((groupOccupants c2WitnessState ["v"] "e").map
          (fun v => basePower c2WitnessState v)).sum
        ≤ ((c2WitnessState.cs "cs_e_0").groupPower : ℚ) := by
    right
    rw [hocc]
    simp only [List.map_cons, List.map_nil, List.sum_cons, List.sum_nil, hb8]
    norm_num [c2WitnessState, updFn]
  exact ⟨by decide, by decide, by norm_num [c2WitnessState, updFn], hbase,
    claim_C2_group_cap c2WitnessState ["v"] "e" "cs_e_0" [] (by decide) (by decide)
      (by norm_num [c2WitnessState, updFn]) hbase hmain⟩

end SumoSnvc
